import Mathlib

/-!
# Falling-text game loop (`src/main.cpp`): embedding and verified properties

The gameplay core of `main.cpp` is embedded as pure functions over an explicit
`GameState`.  Conventions of the embedding:

* `float` quantities are rationals (`ℚ`).  Timers, health and the player
  position are computed exactly, and the decimal literals of the source
  (`0.5f`, `0.7f`, `0.05f`, ...) are the corresponding fractions.
* In the collision test (`getTextWidth`, `getTextHeight`, `checkCollision`)
  and in the advance step of the falling texts, where one rounding can change
  what is observed, every `float` operation is rounded to IEEE 754 binary32,
  round-to-nearest-even (`f32`, `fadd`, `fsub`, `fmul`, `fdiv`).  These
  functions first round the `float` values they read, so a rational that is
  not a `float` stands for the `float` nearest to it (`1 / 20` for `0.05f`).
  Overflow to infinity is outside the model.
* `std::string` is a list of characters, `std::vector<T>` a list.
* The cursors `file1Index` / `file2Index` are C `int`s that start at `0` and
  are only ever incremented or assigned a vector size, so they are natural
  numbers here.
* The glyph table `Characters` is filled from a font at start-up; it is a
  parameter of every function that reads it.
* One iteration of the render loop is `frame`; what the iteration reads from
  the outside world (clock, keys, the two files, the close button) is a
  `FrameInput`.
-/

namespace Gambit

/-! ## Data model -/

/-- Glyph record of `main.cpp` (`struct Character`). -/
structure Character where
  TextureID : Nat
  SizeX : Int
  SizeY : Int
  BearingX : Int
  BearingY : Int
  Advance : Nat
  deriving DecidableEq, Repr

/-- A line of falling text (`struct FallingText`). -/
structure FallingText where
  text : List Char
  x : ℚ
  y : ℚ
  speed : ℚ
  r : ℚ
  g : ℚ
  b : ℚ
  deriving DecidableEq, Repr

/-- The glyph table `std::map<char, Character> Characters`. -/
abbrev Glyphs := Char → Option Character

/-! ## Line source -/

/-- One call of `std::getline(file, line)` on the unread rest of a stream:
`none` when nothing is left (the call fails and the loop ends), otherwise the
characters up to the next newline and the rest of the stream after it. -/
def getline : List Char → Option (List Char × List Char)
  | [] => none
  | c :: cs =>
    some ((c :: cs).takeWhile (fun ch => ch != '\n'),
          ((c :: cs).dropWhile (fun ch => ch != '\n')).drop 1)

/-- The search `std::string::find(pat)`: index of the first occurrence of
`pat`, `none` standing for `npos`. -/
def find : List Char → List Char → Option Nat
  | [], pat => if pat.isEmpty then some 0 else none
  | c :: cs, pat =>
    if pat.isPrefixOf (c :: cs) then some 0
    else (find cs pat).map (fun i => i + 1)

/-- The test of `readAllLines` on one line:
`!line.empty() && line.find("//") != 0`. -/
def keepLine (line : List Char) : Bool :=
  !line.isEmpty && (find line ['/', '/'] != some 0)

/-- The `while (std::getline(file, line))` loop of `readAllLines`; `fuel`
bounds the number of iterations. -/
def readAllLinesLoop : Nat → List Char → List (List Char) → List (List Char)
  | 0, _, lines => lines
  | fuel + 1, file, lines =>
    match getline file with
    | none => lines
    | some (line, rest) =>
      readAllLinesLoop fuel rest (if keepLine line then lines ++ [line] else lines)

/-- The function `readAllLines`, on the content of the file.  Every iteration
of the loop consumes at least one character, so `length + 1` iterations are
enough (`readAllLinesLoop_fuel`). -/
def readAllLines (file : List Char) : List (List Char) :=
  readAllLinesLoop (file.length + 1) file []

/-- The function `getNextLine`: the returned string and the cursor it leaves
behind. -/
def getNextLine (lines : List (List Char)) (currentIndex : Nat) : List Char × Nat :=
  if lines.isEmpty then ([], currentIndex)
  else if currentIndex ≥ lines.length then ([], currentIndex)
  else (lines.getD currentIndex [], currentIndex + 1)

/-- The physical lines of a file content, as the specification views them:
maximal runs of characters ended by a newline or by the end of the file. -/
def physicalLines : List Char → List (List Char)
  | [] => []
  | c :: cs =>
    if c = '\n' then [] :: physicalLines cs
    else
      match physicalLines cs with
      | [] => [[c]]
      | l :: ls => (c :: l) :: ls

/-! ## Single-precision arithmetic -/

/-- Rounding of a rational to the nearest integer, a tie going to the even
neighbour. -/
def roundHalfEven (x : ℚ) : ℤ :=
  let f := ⌊x⌋
  let r := x - f
  if r < 1 / 2 then f else if 1 / 2 < r then f + 1 else if f % 2 = 0 then f else f + 1

/-- Rounding to the nearest `float` (IEEE 754 binary32, round-to-nearest-even):
24 significant bits, with a unit in the last place never below `2^-149`, so
that the subnormal range is included.  Overflow to infinity is not modelled:
above the `float` range the value is still rounded to 24 significant bits. -/
def f32 (q : ℚ) : ℚ :=
  if q = 0 then 0
  else
    let e := max (Int.log 2 |q| - 23) (-149)
    (roundHalfEven (q / (2 : ℚ) ^ e) : ℚ) * (2 : ℚ) ^ e

/-- The `float` sum `a + b` of two `float` values. -/
def fadd (a b : ℚ) : ℚ := f32 (a + b)

/-- The `float` difference `a - b` of two `float` values. -/
def fsub (a b : ℚ) : ℚ := f32 (a - b)

/-- The `float` product `a * b` of two `float` values. -/
def fmul (a b : ℚ) : ℚ := f32 (a * b)

/-- The `float` quotient `a / b` of two `float` values. -/
def fdiv (a b : ℚ) : ℚ := f32 (a / b)

/-! ## Collision geometry -/

/-- The constant `SCREEN_X_PIXELS`. -/
def SCREEN_X_PIXELS : ℚ := 1200

/-- The constant `SCREEN_Y_PIXELS`. -/
def SCREEN_Y_PIXELS : ℚ := 1200

/-- The function `getTextWidth`: the `float` sum of `(Advance >> 6) * scale`
over the characters of `text` that have a glyph; the integer `Advance >> 6` is
converted to `float` before the product. -/
def getTextWidth (Characters : Glyphs) (text : List Char) (scale : ℚ) : ℚ :=
  let scale := f32 scale
  text.foldl
    (fun width c =>
      match Characters c with
      | some ch => fadd width (fmul (f32 ((ch.Advance >>> 6 : Nat) : ℚ)) scale)
      | none => width)
    0

/-- The function `getTextHeight`. -/
def getTextHeight (scale : ℚ) : ℚ := fmul 48 (f32 scale)

/-- The function `checkCollision`. -/
def checkCollision (Characters : Glyphs) (playerX playerY playerSize textX textY : ℚ)
    (text : List Char) (textScale : ℚ) : Bool :=
  let playerX := f32 playerX
  let playerY := f32 playerY
  let playerSize := f32 playerSize
  let textX := f32 textX
  let textY := f32 textY
  let playerPixelX := fadd (fdiv (fmul playerX SCREEN_Y_PIXELS) 2) (fdiv SCREEN_Y_PIXELS 2)
  let playerPixelY := fadd (fdiv (fmul playerY SCREEN_Y_PIXELS) 2) (fdiv SCREEN_Y_PIXELS 2)
  let playerPixelSize := fdiv (fmul playerSize SCREEN_Y_PIXELS) 2
  let playerLeft := fsub playerPixelX playerPixelSize
  let playerRight := fadd playerPixelX playerPixelSize
  let playerTop := fsub playerPixelY playerPixelSize
  let playerBottom := fadd playerPixelY playerPixelSize
  let textWidth := getTextWidth Characters text textScale
  let textHeight := getTextHeight textScale
  let textLeft := textX
  let textRight := fadd textX textWidth
  let textTop := textY
  let textBottom := fadd textY textHeight
  decide (playerLeft < textRight) && decide (playerRight > textLeft) &&
    decide (playerTop < textBottom) && decide (playerBottom > textTop)

/-- An axis-aligned box in pixel space, for the specification's reading of
the collision test. -/
structure Box where
  left : ℚ
  right : ℚ
  top : ℚ
  bottom : ℚ

/-- The specification's player box: centre `(600*playerX+600, 600*playerY+600)`,
half-size `600*playerSize`. -/
def specPlayerBox (playerX playerY playerSize : ℚ) : Box where
  left := (600 * playerX + 600) - 600 * playerSize
  right := (600 * playerX + 600) + 600 * playerSize
  top := (600 * playerY + 600) - 600 * playerSize
  bottom := (600 * playerY + 600) + 600 * playerSize

/-- The specification's text box:
`[textX, textX + width] x [textY, textY + 48*scale]`. -/
def specTextBox (Characters : Glyphs) (textX textY : ℚ) (text : List Char) (scale : ℚ) : Box where
  left := textX
  right := textX + getTextWidth Characters text scale
  top := textY
  bottom := textY + 48 * scale

/-- The specification's open-interval overlap test, all four inequalities strict. -/
def Box.overlapsStrictly (a b : Box) : Prop :=
  a.left < b.right ∧ a.right > b.left ∧ a.top < b.bottom ∧ a.bottom > b.top

/-- The pixel coordinate `checkCollision` computes for a normalized player
coordinate: `(coord * SCREEN_Y_PIXELS/2.0f) + SCREEN_Y_PIXELS/2.0f` in `float`. -/
def playerPixel (coord : ℚ) : ℚ :=
  fadd (fdiv (fmul (f32 coord) SCREEN_Y_PIXELS) 2) (fdiv SCREEN_Y_PIXELS 2)

/-- The pixel half-size `checkCollision` computes:
`playerSize * SCREEN_Y_PIXELS/2.0f` in `float`. -/
def playerPixelHalfSize (playerSize : ℚ) : ℚ :=
  fdiv (fmul (f32 playerSize) SCREEN_Y_PIXELS) 2

/-- The player box with its four edges as `checkCollision` computes them in
`float`. -/
def computedPlayerBox (playerX playerY playerSize : ℚ) : Box where
  left := fsub (playerPixel playerX) (playerPixelHalfSize playerSize)
  right := fadd (playerPixel playerX) (playerPixelHalfSize playerSize)
  top := fsub (playerPixel playerY) (playerPixelHalfSize playerSize)
  bottom := fadd (playerPixel playerY) (playerPixelHalfSize playerSize)

/-- The text box with its four edges as `checkCollision` computes them in
`float`. -/
def computedTextBox (Characters : Glyphs) (textX textY : ℚ) (text : List Char) (scale : ℚ) :
    Box where
  left := f32 textX
  right := fadd (f32 textX) (getTextWidth Characters text scale)
  top := f32 textY
  bottom := fadd (f32 textY) (getTextHeight scale)

/-! ## Game state and the frame loop -/

/-- The variables of `main` that the render loop reads and writes, with the
global `fallingTexts` and the window's close flag. -/
structure GameState where
  file1Lines : List (List Char)
  file2Lines : List (List Char)
  file1Index : Nat
  file2Index : Nat
  playerX : ℚ
  playerY : ℚ
  playerHealth : ℚ
  isGameOver : Bool
  lastFrame : ℚ
  textSpawnTimer : ℚ
  fileReloadTimer : ℚ
  damageTimer : ℚ
  useFirstFile : Bool
  fallingTexts : List FallingText
  shouldClose : Bool

/-- What one iteration of the render loop reads from outside the program: the
clock (`glfwGetTime`), the key states, the current contents of the two text
files, and whether the window was asked to close during `glfwPollEvents`. -/
structure FrameInput where
  currentFrame : ℚ
  keyEscape : Bool
  keyLeft : Bool
  keyRight : Bool
  redTextFile : List Char
  greenTextFile : List Char
  closeRequested : Bool

/-- The constant `maxHealth`. -/
def maxHealth : ℚ := 100

/-- The constant `textSpawnInterval`. -/
def textSpawnInterval : ℚ := 1 / 2

/-- The constant `fileReloadInterval`. -/
def fileReloadInterval : ℚ := 10

/-- The constant `damageInterval`. -/
def damageInterval : ℚ := 1 / 2

/-- The constant `damageAmount`. -/
def damageAmount : ℚ := 1

/-- The state of `main` on entry to the render loop, for the given contents
of the two files. -/
def initialState (redTextFile greenTextFile : List Char) : GameState where
  file1Lines := readAllLines redTextFile
  file2Lines := readAllLines greenTextFile
  file1Index := 0
  file2Index := 0
  playerX := 0
  playerY := -(7 / 10)
  playerHealth := 100
  isGameOver := false
  lastFrame := 0
  textSpawnTimer := 0
  fileReloadTimer := 0
  damageTimer := 0
  useFirstFile := true
  fallingTexts := []
  shouldClose := false

/-- The function `processInput`, on the player position: the position it
leaves in `playerX`. -/
def processInput (keyLeft keyRight : Bool) (playerX deltaTime : ℚ) : ℚ :=
  let moveSpeed : ℚ := 1
  let playerX := if keyLeft then playerX - moveSpeed * deltaTime else playerX
  let playerX := if keyRight then playerX + moveSpeed * deltaTime else playerX
  let maxX : ℚ := 7 / 10
  let playerX := if playerX < -maxX then -maxX else playerX
  let playerX := if playerX > maxX then maxX else playerX
  playerX

/-- The index clamp after a reload:
`if (index >= lines.size() && !lines.empty()) index = lines.size();`. -/
def clampIndex (index : Nat) (lines : List (List Char)) : Nat :=
  if index ≥ lines.length && !lines.isEmpty then lines.length else index

/-- The block "Reload text files every 10 seconds". -/
def reloadFiles (inp : FrameInput) (deltaTime : ℚ) (s : GameState) : GameState :=
  let s := { s with fileReloadTimer := s.fileReloadTimer + deltaTime }
  if s.fileReloadTimer ≥ fileReloadInterval then
    let file1Lines := readAllLines inp.redTextFile
    let file2Lines := readAllLines inp.greenTextFile
    { s with
      fileReloadTimer := 0
      file1Lines := file1Lines
      file2Lines := file2Lines
      file1Index := clampIndex s.file1Index file1Lines
      file2Index := clampIndex s.file2Index file2Lines }
  else s

/-- The body of `if (textSpawnTimer >= textSpawnInterval)`: one firing of the
spawn timer. -/
def spawnFire (s : GameState) : GameState :=
  let s := { s with textSpawnTimer := 0 }
  let next :=
    if s.useFirstFile then getNextLine s.file1Lines s.file1Index
    else getNextLine s.file2Lines s.file2Index
  let nextLine := next.1
  let s :=
    if s.useFirstFile then { s with file1Index := next.2 }
    else { s with file2Index := next.2 }
  let s :=
    if !nextLine.isEmpty then
      let newText : FallingText :=
        if s.useFirstFile then
          { text := nextLine, x := 150, y := 850, speed := 50, r := 1, g := 0, b := 0 }
        else
          { text := nextLine, x := 150, y := 850, speed := 50, r := 0, g := 1, b := 0 }
      { s with fallingTexts := s.fallingTexts ++ [newText] }
    else s
  { s with useFirstFile := !s.useFirstFile }

/-- The block "Spawn new falling text every textSpawnInterval seconds". -/
def spawnText (deltaTime : ℚ) (s : GameState) : GameState :=
  if !s.isGameOver then
    let s := { s with textSpawnTimer := s.textSpawnTimer + deltaTime }
    if s.textSpawnTimer ≥ textSpawnInterval then spawnFire s else s
  else s

/-- The loop body `text.y -= text.speed * deltaTime`: a `float` product, then
a `float` difference. -/
def advanceText (deltaTime : ℚ) (text : FallingText) : FallingText :=
  { text with y := fsub (f32 text.y) (fmul (f32 text.speed) (f32 deltaTime)) }

/-- The algorithm `std::remove_if` followed by `erase`: the elements for which
the predicate is false, in their order. -/
def removeIf (pred : FallingText → Bool) : List FallingText → List FallingText
  | [] => []
  | t :: ts => if pred t then removeIf pred ts else t :: removeIf pred ts

/-- The blocks "Update falling texts" and "Remove texts that have fallen off
screen", on the list of live entities. -/
def updateFallingTexts (deltaTime : ℚ) (texts : List FallingText) : List FallingText :=
  removeIf (fun text => decide (text.y < 0)) (texts.map (advanceText deltaTime))

/-- The flags `(isColliding, isCollidingWithRed)` left by the loop
"Check for collisions with player". -/
def collisionScan (Characters : Glyphs) (playerX playerY : ℚ)
    (texts : List FallingText) : Bool × Bool :=
  texts.foldl
    (fun flags text =>
      if checkCollision Characters playerX playerY (1 / 20) text.x text.y text.text (1 / 2) then
        (true, if text.r == 1 && text.g == 0 && text.b == 0 then true else flags.2)
      else flags)
    (false, false)

/-- The block "Apply damage from red text collisions". -/
def applyDamage (isCollidingWithRed : Bool) (deltaTime : ℚ) (s : GameState) : GameState :=
  if isCollidingWithRed && !s.isGameOver then
    let s := { s with damageTimer := s.damageTimer + deltaTime }
    if s.damageTimer ≥ damageInterval then
      let s := { s with damageTimer := 0, playerHealth := s.playerHealth - damageAmount }
      if s.playerHealth ≤ 0 then { s with playerHealth := 0, isGameOver := true } else s
    else s
  else { s with damageTimer := 0 }

/-- One iteration of the render loop, without the drawing calls. -/
def frame (Characters : Glyphs) (inp : FrameInput) (s : GameState) : GameState :=
  let deltaTime := inp.currentFrame - s.lastFrame
  let s := { s with lastFrame := inp.currentFrame }
  let s := { s with
    shouldClose := s.shouldClose || inp.keyEscape
    playerX := processInput inp.keyLeft inp.keyRight s.playerX deltaTime }
  let s := reloadFiles inp deltaTime s
  let s := spawnText deltaTime s
  let s := { s with fallingTexts := updateFallingTexts deltaTime s.fallingTexts }
  let flags := collisionScan Characters s.playerX s.playerY s.fallingTexts
  let s := applyDamage flags.2 deltaTime s
  { s with shouldClose := s.shouldClose || inp.closeRequested }

/-- The render loop `while (!glfwWindowShouldClose(window))` over the inputs
of the successive iterations; it stops at the first state whose close flag is
set. -/
def run (Characters : Glyphs) : List FrameInput → GameState → GameState
  | [], s => s
  | inp :: rest, s =>
    if s.shouldClose then s else run Characters rest (frame Characters inp s)

/-- The part of `frame` that precedes the collision scan: input, reload,
spawner, advance-and-prune. -/
def beforeDamage (inp : FrameInput) (s : GameState) : GameState :=
  let deltaTime := inp.currentFrame - s.lastFrame
  let s := { s with lastFrame := inp.currentFrame }
  let s := { s with
    shouldClose := s.shouldClose || inp.keyEscape
    playerX := processInput inp.keyLeft inp.keyRight s.playerX deltaTime }
  let s := reloadFiles inp deltaTime s
  let s := spawnText deltaTime s
  { s with fallingTexts := updateFallingTexts deltaTime s.fallingTexts }

/-! ## Runs of single blocks of the loop -/

/-- The colour of an entity as the triple `(r, g, b)`. -/
def FallingText.colour (t : FallingText) : ℚ × ℚ × ℚ := (t.r, t.g, t.b)

/-- The hazard colour: what the spawner gives a line of the first file and the
collision scan compares with. -/
def hazardColour : ℚ × ℚ × ℚ := (1, 0, 0)

/-- The benign colour: what the spawner gives a line of the second file. -/
def benignColour : ℚ × ℚ × ℚ := (0, 1, 0)

/-- The damage block over successive frames with the given frame deltas, the
player overlapping a hazard entity in each of them. -/
def damageRun (dts : List ℚ) (s : GameState) : GameState :=
  dts.foldl (fun st dt => applyDamage true dt st) s

/-- Whether the spawn timer fires in a frame with delta `deltaTime`: the two
conditions guarding the body `spawnFire` in `spawnText`. -/
def spawnFires (deltaTime : ℚ) (s : GameState) : Bool :=
  !s.isGameOver && decide (s.textSpawnTimer + deltaTime ≥ textSpawnInterval)

/-- The spawner block over successive frames with the given frame deltas. -/
def spawnRun (dts : List ℚ) (s : GameState) : GameState :=
  dts.foldl (fun st dt => spawnText dt st) s

/-- The number of spawn-timer firings during `spawnRun`. -/
def firings : List ℚ → GameState → Nat
  | [], _ => 0
  | dt :: rest, s => (if spawnFires dt s then 1 else 0) + firings rest (spawnText dt s)

/-- The colours of `n` entities alternating strictly hazard, benign, hazard,
..., starting with hazard. -/
def alternatingColours (n : Nat) : List (ℚ × ℚ × ℚ) :=
  (List.range n).map (fun k => if k % 2 = 0 then hazardColour else benignColour)

/-- What the spawner's variables hold after `k` firings that each emitted an
entity, for the loaded sequences `lines1` and `lines2`. -/
def SpawnedSoFar (lines1 lines2 : List (List Char)) (k : Nat) (s : GameState) : Prop :=
  s.isGameOver = false
  ∧ s.file1Lines = lines1
  ∧ s.file2Lines = lines2
  ∧ s.useFirstFile = decide (k % 2 = 0)
  ∧ s.file1Index = (k + 1) / 2
  ∧ s.file2Index = k / 2
  ∧ s.fallingTexts.map FallingText.colour = alternatingColours k

/-- The frame deltas `deltaTime` of the successive iterations of the loop on
the given inputs, `lastFrame` being the clock reading kept from before. -/
def frameDeltas : List FrameInput → ℚ → List ℚ
  | [], _ => []
  | inp :: rest, lastFrame =>
    (inp.currentFrame - lastFrame) :: frameDeltas rest inp.currentFrame

/-! ## Concrete states and inputs used in the examples -/

/-- A state in which the first source's cursor stands at 5 (five lines of the
first file consumed) and the reload timer is half a second short of firing. -/
def cursorFiveState : GameState :=
  { initialState "l1\nl2\nl3\nl4\nl5".toList "g1".toList with
    file1Index := 5
    fileReloadTimer := 19 / 2 }

/-- A frame input in which no key is pressed and the first file has the given
content. -/
def reloadInput (redTextFile : List Char) : FrameInput where
  currentFrame := 10
  keyEscape := false
  keyLeft := false
  keyRight := false
  redTextFile := redTextFile
  greenTextFile := "g1".toList
  closeRequested := false

/-- A glyph table in which every character advances by 1000 pixels at
scale 1 (`Advance` is in 1/64 pixel). -/
def wideGlyphs : Glyphs := fun _ =>
  some { TextureID := 0, SizeX := 0, SizeY := 0, BearingX := 0, BearingY := 0, Advance := 64000 }

/-- A hazard-coloured entity with text `x` at the spawn column and height `y`. -/
def hazardAt (y : ℚ) : FallingText :=
  { text := "x".toList, x := 150, y := y, speed := 50, r := 1, g := 0, b := 0 }

/-- A benign-coloured entity with text `x` at the spawn column and height `y`. -/
def benignAt (y : ℚ) : FallingText :=
  { text := "x".toList, x := 150, y := y, speed := 50, r := 0, g := 1, b := 0 }

/-- A state with one point of health left and a hazard entity just above the
player; both files are empty. -/
def lastHitState : GameState :=
  { initialState [] [] with
    playerHealth := 1
    fallingTexts := [hazardAt 200] }

/-- A frame input at clock reading `t` with no key pressed and both files
empty. -/
def idleInput (t : ℚ) : FrameInput where
  currentFrame := t
  keyEscape := false
  keyLeft := false
  keyRight := false
  redTextFile := []
  greenTextFile := []
  closeRequested := false

/-- A state at full health with two benign entities just above the player;
both files are empty. -/
def benignContactState : GameState :=
  { initialState [] [] with
    playerHealth := 100
    fallingTexts := [benignAt 200, benignAt 190] }

/-- A state after game over: health 0, flag set, one hazard entity above the
player and one benign entity about to leave the screen; each file has one line
left to give. -/
def gameOverState : GameState :=
  { initialState "r1".toList "g1".toList with
    playerHealth := 0
    isGameOver := true
    fallingTexts := [hazardAt 200, benignAt 10] }

/-- A state at full health in benign contact only, with a quarter of a second
already accumulated on the damage timer; both files are empty. -/
def partialTimerState : GameState :=
  { initialState [] [] with
    damageTimer := 1 / 4
    fallingTexts := [benignAt 200, benignAt 190] }

/-- A state at full health with a hazard entity 400 pixels up, which a frame
of five seconds brings down onto the player; both files are empty. -/
def longFrameState : GameState :=
  { initialState [] [] with
    fallingTexts := [hazardAt 400] }

/-- A state after game over whose clock reading is `lastFrame`, with one
hazard entity at height `y`; each file has one line left to give. -/
def gameOverAt (lastFrame y : ℚ) : GameState :=
  { initialState "r1".toList "g1".toList with
    playerHealth := 0
    isGameOver := true
    lastFrame := lastFrame
    fallingTexts := [hazardAt y] }

/-! ## Line source: lemmas -/

theorem find_eq_some_zero (s pat : List Char) :
    find s pat = some 0 ↔ pat <+: s := by
  cases s with
  | nil =>
    cases pat with
    | nil => simp [find]
    | cons p ps => simp [find]
  | cons c cs =>
    unfold find
    by_cases h : pat.isPrefixOf (c :: cs) = true
    · simp only [h, if_true, true_iff]
      exact List.isPrefixOf_iff_prefix.mp h
    · simp only [h]
      constructor
      · intro h'
        cases hf : find cs pat <;> simp [hf] at h'
      · intro h'
        exact absurd (List.isPrefixOf_iff_prefix.mpr h') h

theorem keepLine_iff (line : List Char) :
    keepLine line = true ↔ line ≠ [] ∧ ¬ ['/', '/'] <+: line := by
  unfold keepLine
  rw [Bool.and_eq_true]
  have h := find_eq_some_zero line ['/', '/']
  constructor
  · rintro ⟨h1, h2⟩
    refine ⟨?_, ?_⟩
    · intro hl; subst hl; simp at h1
    · intro hp
      have := h.mpr hp
      simp [this] at h2
  · rintro ⟨h1, h2⟩
    refine ⟨?_, ?_⟩
    · cases line with
      | nil => exact absurd rfl h1
      | cons c cs => rfl
    · have : find line ['/', '/'] ≠ some 0 := fun hf => h2 (h.mp hf)
      simpa using this

theorem physicalLines_cons (c : Char) (cs : List Char) :
    physicalLines (c :: cs) =
      (c :: cs).takeWhile (fun ch => ch != '\n') ::
        physicalLines (((c :: cs).dropWhile (fun ch => ch != '\n')).drop 1) := by
  induction cs generalizing c with
  | nil =>
    by_cases hc : c = '\n'
    · subst hc; simp [physicalLines]
    · have hc' : (c != '\n') = true := by simpa using hc
      simp [physicalLines, hc, List.takeWhile_cons, List.dropWhile_cons, hc']
  | cons d ds ih =>
    by_cases hc : c = '\n'
    · subst hc
      simp [physicalLines, List.takeWhile_cons, List.dropWhile_cons]
    · have hc' : (c != '\n') = true := by simpa using hc
      rw [physicalLines, if_neg hc, ih d]
      rw [List.takeWhile_cons (a := c), List.dropWhile_cons (x := c)]
      simp only [hc', if_true]

theorem rest_length_lt (c : Char) (cs : List Char) :
    (((c :: cs).dropWhile (fun ch => ch != '\n')).drop 1).length < (c :: cs).length := by
  have h := List.Sublist.length_le (List.dropWhile_sublist (fun ch => ch != '\n') (l := c :: cs))
  cases hd : (c :: cs).dropWhile (fun ch => ch != '\n') with
  | nil => simp
  | cons x xs =>
    rw [hd] at h
    simp only [List.drop_succ_cons, List.drop_zero, List.length_cons] at h ⊢
    omega

theorem readAllLinesLoop_fuel (fuel : Nat) (file : List Char) (acc : List (List Char))
    (h : file.length < fuel) :
    readAllLinesLoop fuel file acc = acc ++ (physicalLines file).filter keepLine := by
  induction fuel generalizing file acc with
  | zero => omega
  | succ n ih =>
    cases file with
    | nil => simp [readAllLinesLoop, getline, physicalLines]
    | cons c cs =>
      have hlt := rest_length_lt c cs
      rw [readAllLinesLoop]
      simp only [getline]
      rw [ih _ _ (by simp only [List.length_cons] at h hlt ⊢; omega), physicalLines_cons c cs]
      by_cases hk : keepLine ((c :: cs).takeWhile (fun ch => ch != '\n')) = true
      · simp [hk, List.filter_cons]
      · simp [hk, List.filter_cons]

theorem readAllLines_eq (file : List Char) :
    readAllLines file = (physicalLines file).filter keepLine := by
  unfold readAllLines
  rw [readAllLinesLoop_fuel _ _ _ (Nat.lt_succ_self _)]
  simp

theorem mem_readAllLines (file : List Char) (line : List Char) :
    line ∈ readAllLines file ↔
      line ∈ physicalLines file ∧ line ≠ [] ∧ ¬ ['/', '/'] <+: line := by
  rw [readAllLines_eq, List.mem_filter, keepLine_iff]

theorem getNextLine_fst_mem (lines : List (List Char)) (i : Nat) :
    (getNextLine lines i).1 = [] ∨ (getNextLine lines i).1 ∈ lines := by
  unfold getNextLine
  split
  · exact Or.inl rfl
  · split
    · exact Or.inl rfl
    · rename_i h
      right
      have hi : i < lines.length := by omega
      simp only [List.getD_eq_getElem?_getD, List.getElem?_eq_getElem hi, Option.getD_some]
      exact List.getElem_mem hi

/-- C8. `readAllLines` filters at load time: on every file content the result
is the sublist, in file order and verbatim, of the physical lines that are
non-empty and do not begin with `//`; a line whose first `//` stands after its
first character is kept; no element of the result is empty or begins with `//`,
so `getNextLine` never returns a comment line; with the benign file
`// comment`, `lineB` the first benign line is `lineB`. -/
theorem readAllLines_filters_at_load (file : List Char) :
    readAllLines file
        = (physicalLines file).filter (fun line => decide (line ≠ [] ∧ ¬ ['/', '/'] <+: line))
    ∧ (∀ line ∈ physicalLines file, ∀ i : Nat,
        find line ['/', '/'] = some (i + 1) → line ∈ readAllLines file)
    ∧ (∀ line ∈ readAllLines file, line ≠ [] ∧ ¬ ['/', '/'] <+: line)
    ∧ (∀ cursor : Nat, ¬ ['/', '/'] <+: (getNextLine (readAllLines file) cursor).1)
    ∧ readAllLines "line1\nline2".toList = ["line1".toList, "line2".toList]
    ∧ getNextLine (readAllLines "// comment\nlineB".toList) 0 = ("lineB".toList, 1) := by
  refine ⟨?_, ?_, ?_, ?_, by decide, by decide⟩
  · rw [readAllLines_eq]
    congr 1
    funext line
    rw [Bool.eq_iff_iff, keepLine_iff]
    simp
  · intro line hmem i hfind
    rw [mem_readAllLines]
    refine ⟨hmem, ?_, ?_⟩
    · intro hl
      subst hl
      simp [find] at hfind
    · intro hp
      rw [(find_eq_some_zero line ['/', '/']).mpr hp] at hfind
      simp at hfind
  · intro line hmem
    exact ((mem_readAllLines file line).mp hmem).2
  · intro cursor hp
    rcases getNextLine_fst_mem (readAllLines file) cursor with h | h
    · rw [h] at hp
      simp at hp
    · exact ((mem_readAllLines file _).mp h).2.2 hp

/-- C9. `getNextLine` at a cursor inside the sequence returns the line at the
cursor and leaves the cursor one further; at a cursor at or past the end (the
empty sequence included) it returns the empty string and leaves the cursor
unchanged. -/
theorem getNextLine_spec (lines : List (List Char)) (cursor : Nat) :
    (∀ h : cursor < lines.length,
        getNextLine lines cursor = (lines.get ⟨cursor, h⟩, cursor + 1))
    ∧ (lines.length ≤ cursor → getNextLine lines cursor = ([], cursor)) := by
  constructor
  · intro h
    unfold getNextLine
    have hne : lines.isEmpty = false := by
      cases lines with
      | nil => simp at h
      | cons l ls => rfl
    rw [if_neg (by simp [hne]), if_neg (by omega)]
    simp [List.getD_eq_getElem?_getD, List.getElem?_eq_getElem h]
  · intro h
    unfold getNextLine
    by_cases he : lines.isEmpty = true
    · rw [if_pos he]
    · rw [if_neg he, if_pos h]

/-- C9 at concrete inputs: cursor 1 of three lines, cursor 3 of three lines,
and the empty sequence. -/
theorem getNextLine_spec_witness :
    getNextLine ["a".toList, "b".toList, "c".toList] 1 = ("b".toList, 2)
    ∧ getNextLine ["a".toList, "b".toList, "c".toList] 3 = ([], 3)
    ∧ getNextLine [] 0 = ([], 0) :=
  ⟨(getNextLine_spec ["a".toList, "b".toList, "c".toList] 1).1 (by decide),
   (getNextLine_spec ["a".toList, "b".toList, "c".toList] 3).2 (by decide),
   (getNextLine_spec [] 0).2 (by decide)⟩

/-! ## Reload -/

theorem clampIndex_eq (index : Nat) (lines : List (List Char)) :
    clampIndex index lines =
      if lines ≠ [] ∧ lines.length ≤ index then lines.length else index := by
  unfold clampIndex
  cases lines with
  | nil => simp
  | cons l ls => simp

/-- C10, as stated, fails: with the cursor at 5, a reload that produces the
empty sequence (shorter than the cursor position) leaves the cursor at 5, not
at the new length 0. -/
theorem reload_clamp_counterexample :
    (reloadFiles (reloadInput []) (1 / 2) cursorFiveState).file1Lines = []
    ∧ cursorFiveState.file1Index = 5
    ∧ (reloadFiles (reloadInput []) (1 / 2) cursorFiveState).file1Index = 5
    ∧ ¬ ((reloadFiles (reloadInput []) (1 / 2) cursorFiveState).file1Lines.length
            < cursorFiveState.file1Index →
          (reloadFiles (reloadInput []) (1 / 2) cursorFiveState).file1Index
            = (reloadFiles (reloadInput []) (1 / 2) cursorFiveState).file1Lines.length) := by
  have hfire : cursorFiveState.fileReloadTimer + 1 / 2 ≥ fileReloadInterval := by
    norm_num [cursorFiveState, fileReloadInterval]
  have hl : (reloadFiles (reloadInput []) (1 / 2) cursorFiveState).file1Lines = [] := by
    simp only [reloadFiles, if_pos hfire]
    decide
  have hi : (reloadFiles (reloadInput []) (1 / 2) cursorFiveState).file1Index = 5 := by
    simp only [reloadFiles, if_pos hfire]
    decide
  refine ⟨hl, rfl, hi, ?_⟩
  rw [hl, hi]
  decide

/-- C10, amended. When the reload timer fires, both sequences are replaced by
what `readAllLines` returns; for each source, if the new sequence is non-empty
and shorter than the previous cursor position, the cursor becomes the new
length, and after a reload that produces a non-empty sequence the cursor is at
most the new length; if the new sequence is empty the cursor is left as it
was. -/
theorem reload_clamp (inp : FrameInput) (deltaTime : ℚ) (s : GameState)
    (hfire : s.fileReloadTimer + deltaTime ≥ fileReloadInterval) :
    (reloadFiles inp deltaTime s).file1Lines = readAllLines inp.redTextFile
    ∧ (reloadFiles inp deltaTime s).file2Lines = readAllLines inp.greenTextFile
    ∧ ((reloadFiles inp deltaTime s).file1Lines ≠ [] →
        (reloadFiles inp deltaTime s).file1Lines.length < s.file1Index →
        (reloadFiles inp deltaTime s).file1Index = (reloadFiles inp deltaTime s).file1Lines.length)
    ∧ ((reloadFiles inp deltaTime s).file2Lines ≠ [] →
        (reloadFiles inp deltaTime s).file2Lines.length < s.file2Index →
        (reloadFiles inp deltaTime s).file2Index = (reloadFiles inp deltaTime s).file2Lines.length)
    ∧ ((reloadFiles inp deltaTime s).file1Lines ≠ [] →
        (reloadFiles inp deltaTime s).file1Index ≤ (reloadFiles inp deltaTime s).file1Lines.length)
    ∧ ((reloadFiles inp deltaTime s).file2Lines ≠ [] →
        (reloadFiles inp deltaTime s).file2Index ≤ (reloadFiles inp deltaTime s).file2Lines.length)
    ∧ ((reloadFiles inp deltaTime s).file1Lines = [] →
        (reloadFiles inp deltaTime s).file1Index = s.file1Index)
    ∧ ((reloadFiles inp deltaTime s).file2Lines = [] →
        (reloadFiles inp deltaTime s).file2Index = s.file2Index) := by
  simp only [reloadFiles, if_pos hfire, clampIndex_eq]
  refine ⟨trivial, trivial, ?_, ?_, ?_, ?_, ?_, ?_⟩
  · intro hne hlt
    rw [if_pos ⟨hne, le_of_lt hlt⟩]
  · intro hne hlt
    rw [if_pos ⟨hne, le_of_lt hlt⟩]
  · intro hne
    split
    · exact le_refl _
    · rename_i h
      exact le_of_lt (lt_of_not_ge (fun hle => h ⟨hne, hle⟩))
  · intro hne
    split
    · exact le_refl _
    · rename_i h
      exact le_of_lt (lt_of_not_ge (fun hle => h ⟨hne, hle⟩))
  · intro he
    rw [if_neg (fun h => h.1 he)]
  · intro he
    rw [if_neg (fun h => h.1 he)]

/-- C10, amended, at the specification's scenario: cursor 5 and a reload that
produces three lines leave the cursor at 3. -/
theorem reload_clamp_witness :
    cursorFiveState.fileReloadTimer + 1 / 2 ≥ fileReloadInterval
    ∧ cursorFiveState.file1Index = 5
    ∧ (reloadFiles (reloadInput "x\ny\nz".toList) (1 / 2) cursorFiveState).file1Lines.length = 3
    ∧ (reloadFiles (reloadInput "x\ny\nz".toList) (1 / 2) cursorFiveState).file1Index = 3 := by
  have hfire : cursorFiveState.fileReloadTimer + 1 / 2 ≥ fileReloadInterval := by
    norm_num [cursorFiveState, fileReloadInterval]
  have h := reload_clamp (reloadInput "x\ny\nz".toList) (1 / 2) cursorFiveState hfire
  have hl : (reloadFiles (reloadInput "x\ny\nz".toList) (1 / 2) cursorFiveState).file1Lines
      = ["x".toList, "y".toList, "z".toList] := h.1.trans (by decide)
  have hi := h.2.2.1 (by rw [hl]; decide) (by rw [hl]; decide)
  rw [hl] at hi
  exact ⟨hfire, rfl, by rw [hl]; rfl, hi⟩

/-! ## Single-precision rounding: lemmas -/

/-- The integer `roundHalfEven` returns is characterised by its distance to
the argument: less than a half, or exactly a half with the integer even. -/
theorem roundHalfEven_eq (x : ℚ) (m : ℤ)
    (h : |x - m| < 1 / 2 ∨ (|x - m| = 1 / 2 ∧ m % 2 = 0)) : roundHalfEven x = m := by
  unfold roundHalfEven
  dsimp only
  have hf1 : (⌊x⌋ : ℚ) ≤ x := Int.floor_le x
  have hf2 : x < ⌊x⌋ + 1 := Int.lt_floor_add_one x
  rcases h with h | ⟨h, hev⟩
  · rw [abs_lt] at h
    obtain ⟨h1, h2⟩ := h
    by_cases hfm : ⌊x⌋ = m
    · rw [if_pos (by rw [hfm]; linarith)]
      exact hfm
    · have hcase : ⌊x⌋ + 1 = m := by
        have hlt : ⌊x⌋ < m + 1 := by
          have : (⌊x⌋ : ℚ) < m + 1 := by linarith
          exact_mod_cast this
        have hgt : m < ⌊x⌋ + 2 := by
          have : (m : ℚ) < ⌊x⌋ + 2 := by linarith
          exact_mod_cast this
        omega
      have hmq : (m : ℚ) = ⌊x⌋ + 1 := by exact_mod_cast hcase.symm
      rw [if_neg (by rw [hmq] at h1; linarith), if_pos (by rw [hmq] at h1; linarith)]
      exact hcase
  · rcases (abs_eq (by norm_num : (0 : ℚ) ≤ 1 / 2)).mp h with h' | h'
    · have hfm : ⌊x⌋ = m := by
        rw [Int.floor_eq_iff]
        constructor <;> linarith
      rw [hfm, if_neg (by linarith), if_neg (by linarith), if_pos hev]
    · have hfm : ⌊x⌋ = m - 1 := by
        rw [Int.floor_eq_iff]
        push_cast
        constructor <;> linarith
      rw [hfm]
      have hodd : ¬ (m - 1) % 2 = 0 := by omega
      rw [if_neg (by push_cast; linarith), if_neg (by push_cast; linarith), if_neg hodd]
      ring

/-- Evaluation of `f32`: for `2^k ≤ |q| < 2^(k+1)` the unit in the last place
is `2^e` with `e = max (k - 23) (-149)`, and `q` rounds to `m * 2^e` where `m`
is the integer nearest to `q / 2^e`, ties to even. -/
theorem f32_eq (q r : ℚ) (k e m : ℤ)
    (hlo : (2 : ℚ) ^ k ≤ |q|) (hhi : |q| < (2 : ℚ) ^ (k + 1))
    (he : e = max (k - 23) (-149))
    (hm : |q / (2 : ℚ) ^ e - m| < 1 / 2 ∨ (|q / (2 : ℚ) ^ e - m| = 1 / 2 ∧ m % 2 = 0))
    (hr : r = m * (2 : ℚ) ^ e) :
    f32 q = r := by
  have hpos : 0 < |q| := lt_of_lt_of_le (zpow_pos (by norm_num) k) hlo
  have hq : q ≠ 0 := abs_pos.mp hpos
  have hlog : Int.log 2 |q| = k := by
    apply le_antisymm
    · have := (Int.lt_zpow_iff_log_lt (b := 2) (by norm_num) hpos).mp (by exact_mod_cast hhi)
      omega
    · exact (Int.zpow_le_iff_le_log (b := 2) (by norm_num) hpos).mp (by exact_mod_cast hlo)
  unfold f32
  rw [if_neg hq]
  dsimp only
  rw [hlog, ← he, roundHalfEven_eq _ m hm, hr]

theorem f32_zero : f32 0 = 0 := by
  unfold f32
  rw [if_pos rfl]

/-- A value `m * 2^e` with `|m| < 2^24` and `e ≥ -149` is a `float`: rounding
leaves it unchanged. -/
theorem f32_repr (q : ℚ) (m e : ℤ) (hm : |m| < 2 ^ 24) (he : -149 ≤ e)
    (hq : q = m * (2 : ℚ) ^ e) : f32 q = q := by
  by_cases hm0 : m = 0
  · rw [hq, hm0]
    simp [f32_zero]
  have h2 : (0 : ℚ) < 2 := by norm_num
  have hq0 : q ≠ 0 := by
    rw [hq]
    exact mul_ne_zero (by exact_mod_cast hm0) (zpow_ne_zero _ (by norm_num))
  have hpos : 0 < |q| := abs_pos.mpr hq0
  have hmq : |(m : ℚ)| < (2 : ℚ) ^ (24 : ℤ) := by
    have h := (Int.cast_lt (R := ℚ)).mpr hm
    rw [Int.cast_abs] at h
    norm_num at h ⊢
    exact h
  have habs : |q| < (2 : ℚ) ^ (24 + e) := by
    rw [hq, abs_mul, abs_of_pos (zpow_pos h2 e), zpow_add₀ (by norm_num : (2 : ℚ) ≠ 0)]
    exact mul_lt_mul_of_pos_right hmq (zpow_pos h2 e)
  have hk : Int.log 2 |q| < 24 + e :=
    (Int.lt_zpow_iff_log_lt (b := 2) (by norm_num) hpos).mp (by exact_mod_cast habs)
  have hle : max (Int.log 2 |q| - 23) (-149) ≤ e := max_le (by omega) he
  unfold f32
  rw [if_neg hq0]
  dsimp only
  generalize max (Int.log 2 |q| - 23) (-149) = e' at hle
  obtain ⟨n, hn⟩ := Int.eq_ofNat_of_zero_le (sub_nonneg.mpr hle)
  have hdiv : q / (2 : ℚ) ^ e' = ((m * 2 ^ n : ℤ) : ℚ) := by
    rw [hq, mul_div_assoc, ← zpow_sub₀ (by norm_num : (2 : ℚ) ≠ 0), hn]
    push_cast
    rw [zpow_natCast]
  rw [hdiv, roundHalfEven_eq _ (m * 2 ^ n) (Or.inl (by simp))]
  rw [← hdiv]
  exact div_mul_cancel₀ _ (zpow_ne_zero _ (by norm_num))

/-- Integers below `2^24` in absolute value are `float` values. -/
theorem f32_int (n : ℤ) (h : |n| < 2 ^ 24) : f32 (n : ℚ) = n :=
  f32_repr n n 0 h (by norm_num) (by simp)

theorem f32_half : f32 (1 / 2) = 1 / 2 :=
  f32_repr _ 1 (-1) (by norm_num) (by norm_num) (by norm_num)

/-! ## Collision test -/

/-- The function `checkCollision` is the conjunction of the four strict
comparisons between the edges it computes. -/
theorem checkCollision_computed (Characters : Glyphs)
    (playerX playerY playerSize textX textY : ℚ) (text : List Char) (textScale : ℚ) :
    checkCollision Characters playerX playerY playerSize textX textY text textScale
      = (decide ((computedPlayerBox playerX playerY playerSize).left
            < (computedTextBox Characters textX textY text textScale).right)
        && decide ((computedPlayerBox playerX playerY playerSize).right
            > (computedTextBox Characters textX textY text textScale).left)
        && decide ((computedPlayerBox playerX playerY playerSize).top
            < (computedTextBox Characters textX textY text textScale).bottom)
        && decide ((computedPlayerBox playerX playerY playerSize).bottom
            > (computedTextBox Characters textX textY text textScale).top)) := rfl

theorem getTextWidth_wide_x : getTextWidth wideGlyphs "x".toList (1 / 2) = 500 := by
  have hx : "x".toList = ['x'] := by decide
  have hs : ((64000 >>> 6 : ℕ) : ℚ) = 1000 := by
    have : (64000 >>> 6 : ℕ) = 1000 := by decide
    rw [this]; norm_num
  rw [hx]
  unfold getTextWidth
  simp only [wideGlyphs]
  rw [List.foldl_cons, List.foldl_nil, hs]
  simp only [fadd, fmul]
  have h1 : f32 (1000) = 1000 := by
    exact f32_eq _ _ (9) (-14) (16384000) (by norm_num [abs_of_pos])
      (by norm_num [abs_of_pos]) (by norm_num) (Or.inl (by norm_num [abs_lt])) (by norm_num)
  have h2 : f32 (1 / 2) = (1 / 2) := by
    exact f32_eq _ _ (-1) (-24) (8388608) (by norm_num [abs_of_pos])
      (by norm_num [abs_of_pos]) (by norm_num) (Or.inl (by norm_num [abs_lt])) (by norm_num)
  have h3 : f32 (1000 * (1 / 2)) = 500 := by
    exact f32_eq _ _ (8) (-15) (16384000) (by norm_num [abs_of_pos])
      (by norm_num [abs_of_pos]) (by norm_num) (Or.inl (by norm_num [abs_lt])) (by norm_num)
  have h4 : f32 (0 + 500) = 500 := by
    exact f32_eq _ _ (8) (-15) (16384000) (by norm_num [abs_of_pos])
      (by norm_num [abs_of_pos]) (by norm_num) (Or.inl (by norm_num [abs_lt])) (by norm_num)
  rw [h1, h2, h3, h4]

theorem getTextHeight_half : getTextHeight (1 / 2) = 24 := by
  simp only [getTextHeight, fmul]
  have h1 : f32 (1 / 2) = (1 / 2) := by
    exact f32_eq _ _ (-1) (-24) (8388608) (by norm_num [abs_of_pos])
      (by norm_num [abs_of_pos]) (by norm_num) (Or.inl (by norm_num [abs_lt])) (by norm_num)
  have h2 : f32 (48 * (1 / 2)) = 24 := by
    exact f32_eq _ _ (4) (-19) (12582912) (by norm_num [abs_of_pos])
      (by norm_num [abs_of_pos]) (by norm_num) (Or.inl (by norm_num [abs_lt])) (by norm_num)
  rw [h1, h2]

theorem playerPixel_floatY : playerPixel (-(11744051 / 16777216)) = 180 := by
  simp only [playerPixel, fadd, fdiv, fmul, SCREEN_Y_PIXELS]
  have h1 : f32 (-(11744051 / 16777216)) = (-(11744051 / 16777216)) := by
    exact f32_eq _ _ (-1) (-24) (-11744051) (by norm_num [abs_of_pos])
      (by norm_num [abs_of_pos]) (by norm_num) (Or.inl (by norm_num [abs_lt])) (by norm_num)
  have h2 : f32 ((-(11744051 / 16777216)) * 1200) = (-840) := by
    exact f32_eq _ _ (9) (-14) (-13762560) (by norm_num [abs_of_pos])
      (by norm_num [abs_of_pos]) (by norm_num) (Or.inl (by norm_num [abs_lt])) (by norm_num)
  have h3 : f32 ((-840) / 2) = (-420) := by
    exact f32_eq _ _ (8) (-15) (-13762560) (by norm_num [abs_of_pos])
      (by norm_num [abs_of_pos]) (by norm_num) (Or.inl (by norm_num [abs_lt])) (by norm_num)
  have h4 : f32 (1200 / 2) = 600 := by
    exact f32_eq _ _ (9) (-14) (9830400) (by norm_num [abs_of_pos])
      (by norm_num [abs_of_pos]) (by norm_num) (Or.inl (by norm_num [abs_lt])) (by norm_num)
  have h5 : f32 ((-420) + 600) = 180 := by
    exact f32_eq _ _ (7) (-16) (11796480) (by norm_num [abs_of_pos])
      (by norm_num [abs_of_pos]) (by norm_num) (Or.inl (by norm_num [abs_lt])) (by norm_num)
  rw [h1, h2, h3, h4, h5]

theorem playerPixelHalfSize_float : playerPixelHalfSize (13421773 / 268435456) = 30 := by
  simp only [playerPixelHalfSize, fdiv, fmul, SCREEN_Y_PIXELS]
  have h1 : f32 (13421773 / 268435456) = (13421773 / 268435456) := by
    exact f32_eq _ _ (-5) (-28) (13421773) (by norm_num [abs_of_pos])
      (by norm_num [abs_of_pos]) (by norm_num) (Or.inl (by norm_num [abs_lt])) (by norm_num)
  have h2 : f32 ((13421773 / 268435456) * 1200) = 60 := by
    exact f32_eq _ _ (5) (-18) (15728640) (by norm_num [abs_of_pos])
      (by norm_num [abs_of_pos]) (by norm_num) (Or.inl (by norm_num [abs_lt])) (by norm_num)
  have h3 : f32 (60 / 2) = 30 := by
    exact f32_eq _ _ (4) (-19) (15728640) (by norm_num [abs_of_pos])
      (by norm_num [abs_of_pos]) (by norm_num) (Or.inl (by norm_num [abs_lt])) (by norm_num)
  rw [h1, h2, h3]

theorem fsub_180_30 : fsub 180 30 = 150 := by
  simp only [fsub]
  have h1 : f32 (180 - 30) = 150 := by
    exact f32_eq _ _ (7) (-16) (9830400) (by norm_num [abs_of_pos])
      (by norm_num [abs_of_pos]) (by norm_num) (Or.inl (by norm_num [abs_lt])) (by norm_num)
  rw [h1]

theorem fadd_180_30 : fadd 180 30 = 210 := by
  simp only [fadd]
  have h1 : f32 (180 + 30) = 210 := by
    exact f32_eq _ _ (7) (-16) (13762560) (by norm_num [abs_of_pos])
      (by norm_num [abs_of_pos]) (by norm_num) (Or.inl (by norm_num [abs_lt])) (by norm_num)
  rw [h1]

theorem fsub_600_30 : fsub 600 30 = 570 := by
  simp only [fsub]
  have h1 : f32 (600 - 30) = 570 := by
    exact f32_eq _ _ (9) (-14) (9338880) (by norm_num [abs_of_pos])
      (by norm_num [abs_of_pos]) (by norm_num) (Or.inl (by norm_num [abs_lt])) (by norm_num)
  rw [h1]

theorem f32_150 : f32 150 = 150 := by
  have h1 : f32 (150) = 150 := by
    exact f32_eq _ _ (7) (-16) (9830400) (by norm_num [abs_of_pos])
      (by norm_num [abs_of_pos]) (by norm_num) (Or.inl (by norm_num [abs_lt])) (by norm_num)
  rw [h1]

theorem fadd_150_500 : fadd 150 500 = 650 := by
  simp only [fadd]
  have h1 : f32 (150 + 500) = 650 := by
    exact f32_eq _ _ (9) (-14) (10649600) (by norm_num [abs_of_pos])
      (by norm_num [abs_of_pos]) (by norm_num) (Or.inl (by norm_num [abs_lt])) (by norm_num)
  rw [h1]

theorem f32_textY_tie : f32 (16515073 / 131072) = (16515073 / 131072) := by
  have h1 : f32 (16515073 / 131072) = (16515073 / 131072) := by
    exact f32_eq _ _ (6) (-17) (16515073) (by norm_num [abs_of_pos])
      (by norm_num [abs_of_pos]) (by norm_num) (Or.inl (by norm_num [abs_lt])) (by norm_num)
  rw [h1]

theorem fadd_textY_tie : fadd (16515073 / 131072) 24 = 150 := by
  simp only [fadd]
  have h1 : f32 ((16515073 / 131072) + 24) = 150 := by
    exact f32_eq _ _ (7) (-16) (9830400) (by norm_num [abs_of_pos])
      (by norm_num [abs_of_pos]) (by norm_num) (Or.inr ⟨by norm_num [abs_of_pos], by norm_num⟩) (by norm_num)
  rw [h1]

theorem playerPixel_edgeX : playerPixel (-(1123 / 262144)) = (76471 / 128) := by
  simp only [playerPixel, fadd, fdiv, fmul, SCREEN_Y_PIXELS]
  have h1 : f32 (-(1123 / 262144)) = (-(1123 / 262144)) := by
    exact f32_eq _ _ (-8) (-31) (-9199616) (by norm_num [abs_of_pos])
      (by norm_num [abs_of_pos]) (by norm_num) (Or.inl (by norm_num [abs_lt])) (by norm_num)
  have h2 : f32 ((-(1123 / 262144)) * 1200) = (-(84225 / 16384)) := by
    exact f32_eq _ _ (2) (-21) (-10780800) (by norm_num [abs_of_pos])
      (by norm_num [abs_of_pos]) (by norm_num) (Or.inl (by norm_num [abs_lt])) (by norm_num)
  have h3 : f32 ((-(84225 / 16384)) / 2) = (-(84225 / 32768)) := by
    exact f32_eq _ _ (1) (-22) (-10780800) (by norm_num [abs_of_pos])
      (by norm_num [abs_of_pos]) (by norm_num) (Or.inl (by norm_num [abs_lt])) (by norm_num)
  have h4 : f32 (1200 / 2) = 600 := by
    exact f32_eq _ _ (9) (-14) (9830400) (by norm_num [abs_of_pos])
      (by norm_num [abs_of_pos]) (by norm_num) (Or.inl (by norm_num [abs_lt])) (by norm_num)
  have h5 : f32 ((-(84225 / 32768)) + 600) = (76471 / 128) := by
    exact f32_eq _ _ (9) (-14) (9788288) (by norm_num [abs_of_pos])
      (by norm_num [abs_of_pos]) (by norm_num) (Or.inr ⟨by norm_num [abs_of_pos], by norm_num⟩) (by norm_num)
  rw [h1, h2, h3, h4, h5]

theorem playerPixel_zero : playerPixel 0 = 600 := by
  simp only [playerPixel, fadd, fdiv, fmul, SCREEN_Y_PIXELS]
  have h1 : f32 (0) = 0 := by
    exact f32_zero
  have h2 : f32 (0 * 1200) = 0 := by
    rw [show ((0 * 1200) : ℚ) = 0 by norm_num]
    exact f32_zero
  have h3 : f32 (0 / 2) = 0 := by
    rw [show ((0 / 2) : ℚ) = 0 by norm_num]
    exact f32_zero
  have h4 : f32 (1200 / 2) = 600 := by
    exact f32_eq _ _ (9) (-14) (9830400) (by norm_num [abs_of_pos])
      (by norm_num [abs_of_pos]) (by norm_num) (Or.inl (by norm_num [abs_lt])) (by norm_num)
  have h5 : f32 (0 + 600) = 600 := by
    exact f32_eq _ _ (9) (-14) (9830400) (by norm_num [abs_of_pos])
      (by norm_num [abs_of_pos]) (by norm_num) (Or.inl (by norm_num [abs_lt])) (by norm_num)
  rw [h1, h2, h3, h4, h5]

theorem playerPixelHalfSize_edge : playerPixelHalfSize (1873 / 262144) = (140475 / 32768) := by
  simp only [playerPixelHalfSize, fdiv, fmul, SCREEN_Y_PIXELS]
  have h1 : f32 (1873 / 262144) = (1873 / 262144) := by
    exact f32_eq _ _ (-8) (-31) (15343616) (by norm_num [abs_of_pos])
      (by norm_num [abs_of_pos]) (by norm_num) (Or.inl (by norm_num [abs_lt])) (by norm_num)
  have h2 : f32 ((1873 / 262144) * 1200) = (140475 / 16384) := by
    exact f32_eq _ _ (3) (-20) (8990400) (by norm_num [abs_of_pos])
      (by norm_num [abs_of_pos]) (by norm_num) (Or.inl (by norm_num [abs_lt])) (by norm_num)
  have h3 : f32 ((140475 / 16384) / 2) = (140475 / 32768) := by
    exact f32_eq _ _ (2) (-21) (8990400) (by norm_num [abs_of_pos])
      (by norm_num [abs_of_pos]) (by norm_num) (Or.inl (by norm_num [abs_lt])) (by norm_num)
  rw [h1, h2, h3]

theorem edge_left : fsub (76471 / 128) (140475 / 32768) = (4859025 / 8192) := by
  simp only [fsub]
  have h1 : f32 ((76471 / 128) - (140475 / 32768)) = (4859025 / 8192) := by
    exact f32_eq _ _ (9) (-14) (9718050) (by norm_num [abs_of_pos])
      (by norm_num [abs_of_pos]) (by norm_num) (Or.inr ⟨by norm_num [abs_of_pos], by norm_num⟩) (by norm_num)
  rw [h1]

theorem edge_right : fadd (76471 / 128) (140475 / 32768) = (4929263 / 8192) := by
  simp only [fadd]
  have h1 : f32 ((76471 / 128) + (140475 / 32768)) = (4929263 / 8192) := by
    exact f32_eq _ _ (9) (-14) (9858526) (by norm_num [abs_of_pos])
      (by norm_num [abs_of_pos]) (by norm_num) (Or.inr ⟨by norm_num [abs_of_pos], by norm_num⟩) (by norm_num)
  rw [h1]

theorem edge_top : fsub 600 (140475 / 32768) = (4880081 / 8192) := by
  simp only [fsub]
  have h1 : f32 (600 - (140475 / 32768)) = (4880081 / 8192) := by
    exact f32_eq _ _ (9) (-14) (9760162) (by norm_num [abs_of_pos])
      (by norm_num [abs_of_pos]) (by norm_num) (Or.inr ⟨by norm_num [abs_of_pos], by norm_num⟩) (by norm_num)
  rw [h1]

theorem edge_bottom : fadd 600 (140475 / 32768) = (4950319 / 8192) := by
  simp only [fadd]
  have h1 : f32 (600 + (140475 / 32768)) = (4950319 / 8192) := by
    exact f32_eq _ _ (9) (-14) (9900638) (by norm_num [abs_of_pos])
      (by norm_num [abs_of_pos]) (by norm_num) (Or.inr ⟨by norm_num [abs_of_pos], by norm_num⟩) (by norm_num)
  rw [h1]

theorem f32_edge_textX : f32 (9858525 / 16384) = (9858525 / 16384) := by
  have h1 : f32 (9858525 / 16384) = (9858525 / 16384) := by
    exact f32_eq _ _ (9) (-14) (9858525) (by norm_num [abs_of_pos])
      (by norm_num [abs_of_pos]) (by norm_num) (Or.inl (by norm_num [abs_lt])) (by norm_num)
  rw [h1]

theorem edge_textRight : fadd (9858525 / 16384) 500 = (4512631 / 4096) := by
  simp only [fadd]
  have h1 : f32 ((9858525 / 16384) + 500) = (4512631 / 4096) := by
    exact f32_eq _ _ (10) (-13) (9025262) (by norm_num [abs_of_pos])
      (by norm_num [abs_of_pos]) (by norm_num) (Or.inr ⟨by norm_num [abs_of_pos], by norm_num⟩) (by norm_num)
  rw [h1]

theorem f32_590 : f32 590 = 590 := by
  have h1 : f32 (590) = 590 := by
    exact f32_eq _ _ (9) (-14) (9666560) (by norm_num [abs_of_pos])
      (by norm_num [abs_of_pos]) (by norm_num) (Or.inl (by norm_num [abs_lt])) (by norm_num)
  rw [h1]

theorem fadd_590_24 : fadd 590 24 = 614 := by
  simp only [fadd]
  have h1 : f32 (590 + 24) = 614 := by
    exact f32_eq _ _ (9) (-14) (10059776) (by norm_num [abs_of_pos])
      (by norm_num [abs_of_pos]) (by norm_num) (Or.inl (by norm_num [abs_lt])) (by norm_num)
  rw [h1]

theorem playerPixelHalfSize_twentieth : playerPixelHalfSize (1 / 20) = 30 := by
  simp only [playerPixelHalfSize, fdiv, fmul, SCREEN_Y_PIXELS]
  have h1 : f32 (1 / 20) = (13421773 / 268435456) := by
    exact f32_eq _ _ (-5) (-28) (13421773) (by norm_num [abs_of_pos])
      (by norm_num [abs_of_pos]) (by norm_num) (Or.inl (by norm_num [abs_lt])) (by norm_num)
  have h2 : f32 ((13421773 / 268435456) * 1200) = 60 := by
    exact f32_eq _ _ (5) (-18) (15728640) (by norm_num [abs_of_pos])
      (by norm_num [abs_of_pos]) (by norm_num) (Or.inl (by norm_num [abs_lt])) (by norm_num)
  have h3 : f32 (60 / 2) = 30 := by
    exact f32_eq _ _ (4) (-19) (15728640) (by norm_num [abs_of_pos])
      (by norm_num [abs_of_pos]) (by norm_num) (Or.inl (by norm_num [abs_lt])) (by norm_num)
  rw [h1, h2, h3]

theorem fadd_600_30 : fadd 600 30 = 630 := by
  simp only [fadd]
  have h1 : f32 (600 + 30) = 630 := by
    exact f32_eq _ _ (9) (-14) (10321920) (by norm_num [abs_of_pos])
      (by norm_num [abs_of_pos]) (by norm_num) (Or.inl (by norm_num [abs_lt])) (by norm_num)
  rw [h1]

theorem f32_630 : f32 630 = 630 := by
  have h1 : f32 (630) = 630 := by
    exact f32_eq _ _ (9) (-14) (10321920) (by norm_num [abs_of_pos])
      (by norm_num [abs_of_pos]) (by norm_num) (Or.inl (by norm_num [abs_lt])) (by norm_num)
  rw [h1]

theorem playerPixel_initialY : playerPixel (-(7 / 10)) = 180 := by
  simp only [playerPixel, fadd, fdiv, fmul, SCREEN_Y_PIXELS]
  have h1 : f32 (-(7 / 10)) = (-(11744051 / 16777216)) := by
    exact f32_eq _ _ (-1) (-24) (-11744051) (by norm_num [abs_of_pos])
      (by norm_num [abs_of_pos]) (by norm_num) (Or.inl (by norm_num [abs_lt])) (by norm_num)
  have h2 : f32 ((-(11744051 / 16777216)) * 1200) = (-840) := by
    exact f32_eq _ _ (9) (-14) (-13762560) (by norm_num [abs_of_pos])
      (by norm_num [abs_of_pos]) (by norm_num) (Or.inl (by norm_num [abs_lt])) (by norm_num)
  have h3 : f32 ((-840) / 2) = (-420) := by
    exact f32_eq _ _ (8) (-15) (-13762560) (by norm_num [abs_of_pos])
      (by norm_num [abs_of_pos]) (by norm_num) (Or.inl (by norm_num [abs_lt])) (by norm_num)
  have h4 : f32 (1200 / 2) = 600 := by
    exact f32_eq _ _ (9) (-14) (9830400) (by norm_num [abs_of_pos])
      (by norm_num [abs_of_pos]) (by norm_num) (Or.inl (by norm_num [abs_lt])) (by norm_num)
  have h5 : f32 ((-420) + 600) = 180 := by
    exact f32_eq _ _ (7) (-16) (11796480) (by norm_num [abs_of_pos])
      (by norm_num [abs_of_pos]) (by norm_num) (Or.inl (by norm_num [abs_lt])) (by norm_num)
  rw [h1, h2, h3, h4, h5]

theorem f32_175 : f32 175 = 175 := by
  have h1 : f32 (175) = 175 := by
    exact f32_eq _ _ (7) (-16) (11468800) (by norm_num [abs_of_pos])
      (by norm_num [abs_of_pos]) (by norm_num) (Or.inl (by norm_num [abs_lt])) (by norm_num)
  rw [h1]

theorem f32_165 : f32 165 = 165 := by
  have h1 : f32 (165) = 165 := by
    exact f32_eq _ _ (7) (-16) (10813440) (by norm_num [abs_of_pos])
      (by norm_num [abs_of_pos]) (by norm_num) (Or.inl (by norm_num [abs_lt])) (by norm_num)
  rw [h1]

theorem fadd_175_24 : fadd 175 24 = 199 := by
  simp only [fadd]
  have h1 : f32 (175 + 24) = 199 := by
    exact f32_eq _ _ (7) (-16) (13041664) (by norm_num [abs_of_pos])
      (by norm_num [abs_of_pos]) (by norm_num) (Or.inl (by norm_num [abs_lt])) (by norm_num)
  rw [h1]

theorem fadd_165_24 : fadd 165 24 = 189 := by
  simp only [fadd]
  have h1 : f32 (165 + 24) = 189 := by
    exact f32_eq _ _ (7) (-16) (12386304) (by norm_num [abs_of_pos])
      (by norm_num [abs_of_pos]) (by norm_num) (Or.inl (by norm_num [abs_lt])) (by norm_num)
  rw [h1]

theorem fadd_150_24 : fadd 150 24 = 174 := by
  simp only [fadd]
  have h1 : f32 (150 + 24) = 174 := by
    exact f32_eq _ _ (7) (-16) (11403264) (by norm_num [abs_of_pos])
      (by norm_num [abs_of_pos]) (by norm_num) (Or.inl (by norm_num [abs_lt])) (by norm_num)
  rw [h1]

/-- The collision test at the initial player position against the text `x`
(500 pixels wide under `wideGlyphs`) at the spawn column and a height `y`
between 126 and 210 that is a `float` value, as is `y + 24`. -/
theorem checkCollision_wide (y : ℚ) (hy : f32 y = y) (hb : fadd y 24 = y + 24)
    (h1 : 126 < y) (h2 : y < 210) :
    checkCollision wideGlyphs 0 (-(7 / 10)) (1 / 20) 150 y "x".toList (1 / 2) = true := by
  rw [checkCollision_computed]
  simp only [computedPlayerBox, computedTextBox, playerPixel_zero, playerPixel_initialY,
    playerPixelHalfSize_twentieth, fsub_600_30, fadd_600_30, fsub_180_30, fadd_180_30, f32_150,
    getTextWidth_wide_x, fadd_150_500, getTextHeight_half, hy, hb, Bool.and_eq_true,
    decide_eq_true_eq, gt_iff_lt]
  refine ⟨⟨⟨by norm_num, by norm_num⟩, by linarith⟩, by linarith⟩

/-- C3, as stated, fails in both directions on `float` inputs.  With the
loop's own arguments (`playerX = 0`, `playerY = -0.7f`, `playerSize = 0.05f`,
`textX = 150`, scale 0.5) and `textY = 126 + 2^-17`, a text 500 pixels wide:
the exact boxes overlap strictly, but the code computes `playerTop = 150` and
`textBottom = 150` and returns false.  With `playerX = -1123/2^18`,
`playerSize = 1873/2^18`, `textX = 9858525/2^14`: the exact boxes share only
the edge `playerRight = textLeft`, but the code computes a `playerRight` one
unit in the last place higher and returns true. -/
theorem checkCollision_counterexample :
    ((specPlayerBox 0 (-(11744051 / 16777216)) (13421773 / 268435456)).overlapsStrictly
        (specTextBox wideGlyphs 150 (16515073 / 131072) "x".toList (1 / 2))
      ∧ checkCollision wideGlyphs 0 (-(11744051 / 16777216)) (13421773 / 268435456)
          150 (16515073 / 131072) "x".toList (1 / 2) = false)
    ∧ ((specPlayerBox (-(1123 / 262144)) 0 (1873 / 262144)).right
          = (specTextBox wideGlyphs (9858525 / 16384) 590 "x".toList (1 / 2)).left
      ∧ checkCollision wideGlyphs (-(1123 / 262144)) 0 (1873 / 262144)
          (9858525 / 16384) 590 "x".toList (1 / 2) = true) := by
  refine ⟨⟨?_, ?_⟩, ?_, ?_⟩
  · simp only [Box.overlapsStrictly, specPlayerBox, specTextBox, getTextWidth_wide_x]
    norm_num
  · rw [checkCollision_computed]
    simp only [computedPlayerBox, computedTextBox, playerPixel_zero, playerPixel_floatY,
      playerPixelHalfSize_float, fsub_600_30, fadd_600_30, fsub_180_30, fadd_180_30, f32_150,
      getTextWidth_wide_x, fadd_150_500, f32_textY_tie, getTextHeight_half, fadd_textY_tie]
    norm_num
  · simp only [specPlayerBox, specTextBox]
    norm_num
  · rw [checkCollision_computed]
    simp only [computedPlayerBox, computedTextBox, playerPixel_edgeX, playerPixel_zero,
      playerPixelHalfSize_edge, edge_left, edge_right, edge_top, edge_bottom, f32_edge_textX,
      getTextWidth_wide_x, edge_textRight, f32_590, getTextHeight_half, fadd_590_24]
    norm_num

/-- C3, amended. The function `checkCollision` returns true exactly when the
player box and the text box, each edge taken as the code computes it in
`float` (every product, quotient, sum and difference rounded to nearest),
overlap with all four inequalities strict; it returns false when these
computed boxes are disjoint on an axis and when they only share a computed
edge; and whenever the computed edges are the exact ones of the specification
(centre `(600*playerX+600, 600*playerY+600)`, half-size `600*playerSize`, text
box `[textX, textX+width] x [textY, textY+48*scale]`), it returns true exactly
when the exact boxes overlap strictly. -/
theorem checkCollision_iff_strict_overlap (Characters : Glyphs)
    (playerX playerY playerSize textX textY : ℚ) (text : List Char) (textScale : ℚ) :
    (checkCollision Characters playerX playerY playerSize textX textY text textScale = true ↔
      (computedPlayerBox playerX playerY playerSize).overlapsStrictly
        (computedTextBox Characters textX textY text textScale))
    ∧ ((computedPlayerBox playerX playerY playerSize).right
            < (computedTextBox Characters textX textY text textScale).left
          ∨ (computedTextBox Characters textX textY text textScale).right
            < (computedPlayerBox playerX playerY playerSize).left
          ∨ (computedPlayerBox playerX playerY playerSize).bottom
            < (computedTextBox Characters textX textY text textScale).top
          ∨ (computedTextBox Characters textX textY text textScale).bottom
            < (computedPlayerBox playerX playerY playerSize).top →
        checkCollision Characters playerX playerY playerSize textX textY text textScale = false)
    ∧ ((computedPlayerBox playerX playerY playerSize).right
            = (computedTextBox Characters textX textY text textScale).left
          ∨ (computedTextBox Characters textX textY text textScale).right
            = (computedPlayerBox playerX playerY playerSize).left
          ∨ (computedPlayerBox playerX playerY playerSize).bottom
            = (computedTextBox Characters textX textY text textScale).top
          ∨ (computedTextBox Characters textX textY text textScale).bottom
            = (computedPlayerBox playerX playerY playerSize).top →
        checkCollision Characters playerX playerY playerSize textX textY text textScale = false)
    ∧ (computedPlayerBox playerX playerY playerSize = specPlayerBox playerX playerY playerSize →
        computedTextBox Characters textX textY text textScale
          = specTextBox Characters textX textY text textScale →
        (checkCollision Characters playerX playerY playerSize textX textY text textScale = true ↔
          (specPlayerBox playerX playerY playerSize).overlapsStrictly
            (specTextBox Characters textX textY text textScale))) := by
  have key : checkCollision Characters playerX playerY playerSize textX textY text textScale = true ↔
      (computedPlayerBox playerX playerY playerSize).overlapsStrictly
        (computedTextBox Characters textX textY text textScale) := by
    rw [checkCollision_computed]
    simp only [Box.overlapsStrictly, Bool.and_eq_true, decide_eq_true_eq, gt_iff_lt]
    tauto
  refine ⟨key, ?_, ?_, ?_⟩
  · intro h
    rw [← Bool.not_eq_true, key]
    rintro ⟨h1, h2, h3, h4⟩
    rcases h with h | h | h | h
    · exact lt_asymm h h2
    · exact lt_asymm h h1
    · exact lt_asymm h h4
    · exact lt_asymm h h3
  · intro h
    rw [← Bool.not_eq_true, key]
    rintro ⟨h1, h2, h3, h4⟩
    rcases h with h | h | h | h
    · rw [h] at h2; exact lt_irrefl _ h2
    · rw [h] at h1; exact lt_irrefl _ h1
    · rw [h] at h4; exact lt_irrefl _ h4
    · rw [h] at h3; exact lt_irrefl _ h3
  · intro hp ht
    rw [key, hp, ht]

/-- C3, amended, at a concrete input: for the player at the initial position
(`playerX = 0`, size `0.05f`) the code computes the right edge 630; a text
whose left edge is at 630 only touches it and does not collide. -/
theorem checkCollision_edge_witness :
    (computedPlayerBox 0 (-(7 / 10)) (1 / 20)).right = 630
    ∧ (computedTextBox (fun _ => none) 630 160 "abc".toList (1 / 2)).left = 630
    ∧ checkCollision (fun _ => none) 0 (-(7 / 10)) (1 / 20) 630 160 "abc".toList (1 / 2) = false := by
  have hr : (computedPlayerBox 0 (-(7 / 10)) (1 / 20)).right = 630 := by
    simp only [computedPlayerBox, playerPixel_zero, playerPixelHalfSize_twentieth, fadd_600_30]
  have hl : (computedTextBox (fun _ => none) 630 160 "abc".toList (1 / 2)).left = 630 := by
    simp only [computedTextBox, f32_630]
  exact ⟨hr, hl,
    (checkCollision_iff_strict_overlap (fun _ => none) 0 (-(7 / 10)) (1 / 20) 630 160
      "abc".toList (1 / 2)).2.2.1 (Or.inl (hr.trans hl.symm))⟩

/-! ## Falling-text registry -/

theorem removeIf_eq_filter (pred : FallingText → Bool) (texts : List FallingText) :
    removeIf pred texts = texts.filter (fun t => !pred t) := by
  induction texts with
  | nil => rfl
  | cons t ts ih =>
    by_cases h : pred t = true
    · simp [removeIf, h, ih]
    · simp [removeIf, h, ih]

theorem updateFallingTexts_eq_filter (deltaTime : ℚ) (texts : List FallingText) :
    updateFallingTexts deltaTime texts
      = (texts.map (advanceText deltaTime)).filter (fun t => decide (¬ t.y < 0)) := by
  unfold updateFallingTexts
  rw [removeIf_eq_filter]
  congr 1
  funext t
  by_cases h : t.y < 0
  · simp [h]
  · simp [h, not_lt.mp h]

theorem updateFallingTexts_nil (deltaTime : ℚ) : updateFallingTexts deltaTime [] = [] := rfl

theorem updateFallingTexts_cons (deltaTime : ℚ) (t : FallingText) (ts : List FallingText) :
    updateFallingTexts deltaTime (t :: ts)
      = if (advanceText deltaTime t).y < 0 then updateFallingTexts deltaTime ts
        else advanceText deltaTime t :: updateFallingTexts deltaTime ts := by
  unfold updateFallingTexts
  rw [List.map_cons, removeIf]
  by_cases h : (advanceText deltaTime t).y < 0
  · rw [if_pos h, if_pos (by simpa using h)]
  · rw [if_neg h, if_neg (by simpa using h)]

/-- The advance step on one entity, once the `float` value of its new `y` is
known. -/
theorem advanceText_eval (deltaTime : ℚ) (t : FallingText) (v : ℚ)
    (h : fsub (f32 t.y) (fmul (f32 t.speed) (f32 deltaTime)) = v) :
    advanceText deltaTime t = { t with y := v } := by
  unfold advanceText
  rw [h]

theorem advance_200 : fsub (f32 200) (fmul (f32 50) (f32 (1 / 2))) = 175 := by
  simp only [fsub, fmul]
  have h1 : f32 (200) = 200 := by
    exact f32_eq _ _ (7) (-16) (13107200) (by norm_num [abs_of_pos])
      (by norm_num [abs_of_pos]) (by norm_num) (Or.inl (by norm_num [abs_lt])) (by norm_num)
  have h2 : f32 (50) = 50 := by
    exact f32_eq _ _ (5) (-18) (13107200) (by norm_num [abs_of_pos])
      (by norm_num [abs_of_pos]) (by norm_num) (Or.inl (by norm_num [abs_lt])) (by norm_num)
  have h3 : f32 (1 / 2) = (1 / 2) := by
    exact f32_eq _ _ (-1) (-24) (8388608) (by norm_num [abs_of_pos])
      (by norm_num [abs_of_pos]) (by norm_num) (Or.inl (by norm_num [abs_lt])) (by norm_num)
  have h4 : f32 (50 * (1 / 2)) = 25 := by
    exact f32_eq _ _ (4) (-19) (13107200) (by norm_num [abs_of_pos])
      (by norm_num [abs_of_pos]) (by norm_num) (Or.inl (by norm_num [abs_lt])) (by norm_num)
  have h5 : f32 (200 - 25) = 175 := by
    exact f32_eq _ _ (7) (-16) (11468800) (by norm_num [abs_of_pos])
      (by norm_num [abs_of_pos]) (by norm_num) (Or.inl (by norm_num [abs_lt])) (by norm_num)
  rw [h1, h2, h3, h4, h5]

theorem advance_190 : fsub (f32 190) (fmul (f32 50) (f32 (1 / 2))) = 165 := by
  simp only [fsub, fmul]
  have h1 : f32 (190) = 190 := by
    exact f32_eq _ _ (7) (-16) (12451840) (by norm_num [abs_of_pos])
      (by norm_num [abs_of_pos]) (by norm_num) (Or.inl (by norm_num [abs_lt])) (by norm_num)
  have h2 : f32 (50) = 50 := by
    exact f32_eq _ _ (5) (-18) (13107200) (by norm_num [abs_of_pos])
      (by norm_num [abs_of_pos]) (by norm_num) (Or.inl (by norm_num [abs_lt])) (by norm_num)
  have h3 : f32 (1 / 2) = (1 / 2) := by
    exact f32_eq _ _ (-1) (-24) (8388608) (by norm_num [abs_of_pos])
      (by norm_num [abs_of_pos]) (by norm_num) (Or.inl (by norm_num [abs_lt])) (by norm_num)
  have h4 : f32 (50 * (1 / 2)) = 25 := by
    exact f32_eq _ _ (4) (-19) (13107200) (by norm_num [abs_of_pos])
      (by norm_num [abs_of_pos]) (by norm_num) (Or.inl (by norm_num [abs_lt])) (by norm_num)
  have h5 : f32 (190 - 25) = 165 := by
    exact f32_eq _ _ (7) (-16) (10813440) (by norm_num [abs_of_pos])
      (by norm_num [abs_of_pos]) (by norm_num) (Or.inl (by norm_num [abs_lt])) (by norm_num)
  rw [h1, h2, h3, h4, h5]

theorem advance_10 : fsub (f32 10) (fmul (f32 50) (f32 (1 / 2))) = (-15) := by
  simp only [fsub, fmul]
  have h1 : f32 (10) = 10 := by
    exact f32_eq _ _ (3) (-20) (10485760) (by norm_num [abs_of_pos])
      (by norm_num [abs_of_pos]) (by norm_num) (Or.inl (by norm_num [abs_lt])) (by norm_num)
  have h2 : f32 (50) = 50 := by
    exact f32_eq _ _ (5) (-18) (13107200) (by norm_num [abs_of_pos])
      (by norm_num [abs_of_pos]) (by norm_num) (Or.inl (by norm_num [abs_lt])) (by norm_num)
  have h3 : f32 (1 / 2) = (1 / 2) := by
    exact f32_eq _ _ (-1) (-24) (8388608) (by norm_num [abs_of_pos])
      (by norm_num [abs_of_pos]) (by norm_num) (Or.inl (by norm_num [abs_lt])) (by norm_num)
  have h4 : f32 (50 * (1 / 2)) = 25 := by
    exact f32_eq _ _ (4) (-19) (13107200) (by norm_num [abs_of_pos])
      (by norm_num [abs_of_pos]) (by norm_num) (Or.inl (by norm_num [abs_lt])) (by norm_num)
  have h5 : f32 (10 - 25) = (-15) := by
    exact f32_eq _ _ (3) (-20) (-15728640) (by norm_num [abs_of_pos])
      (by norm_num [abs_of_pos]) (by norm_num) (Or.inl (by norm_num [abs_lt])) (by norm_num)
  rw [h1, h2, h3, h4, h5]

theorem advance_400 : fsub (f32 400) (fmul (f32 50) (f32 5)) = 150 := by
  simp only [fsub, fmul]
  have h1 : f32 (400) = 400 := by
    exact f32_eq _ _ (8) (-15) (13107200) (by norm_num [abs_of_pos])
      (by norm_num [abs_of_pos]) (by norm_num) (Or.inl (by norm_num [abs_lt])) (by norm_num)
  have h2 : f32 (50) = 50 := by
    exact f32_eq _ _ (5) (-18) (13107200) (by norm_num [abs_of_pos])
      (by norm_num [abs_of_pos]) (by norm_num) (Or.inl (by norm_num [abs_lt])) (by norm_num)
  have h3 : f32 (5) = 5 := by
    exact f32_eq _ _ (2) (-21) (10485760) (by norm_num [abs_of_pos])
      (by norm_num [abs_of_pos]) (by norm_num) (Or.inl (by norm_num [abs_lt])) (by norm_num)
  have h4 : f32 (50 * 5) = 250 := by
    exact f32_eq _ _ (7) (-16) (16384000) (by norm_num [abs_of_pos])
      (by norm_num [abs_of_pos]) (by norm_num) (Or.inl (by norm_num [abs_lt])) (by norm_num)
  have h5 : f32 (400 - 250) = 150 := by
    exact f32_eq _ _ (7) (-16) (9830400) (by norm_num [abs_of_pos])
      (by norm_num [abs_of_pos]) (by norm_num) (Or.inl (by norm_num [abs_lt])) (by norm_num)
  rw [h1, h2, h3, h4, h5]

theorem advance_25 : fsub (f32 25) (fmul (f32 50) (f32 (1 / 2))) = 0 := by
  simp only [fsub, fmul]
  have h1 : f32 (25) = 25 := by
    exact f32_eq _ _ (4) (-19) (13107200) (by norm_num [abs_of_pos])
      (by norm_num [abs_of_pos]) (by norm_num) (Or.inl (by norm_num [abs_lt])) (by norm_num)
  have h2 : f32 (50) = 50 := by
    exact f32_eq _ _ (5) (-18) (13107200) (by norm_num [abs_of_pos])
      (by norm_num [abs_of_pos]) (by norm_num) (Or.inl (by norm_num [abs_lt])) (by norm_num)
  have h3 : f32 (1 / 2) = (1 / 2) := by
    exact f32_eq _ _ (-1) (-24) (8388608) (by norm_num [abs_of_pos])
      (by norm_num [abs_of_pos]) (by norm_num) (Or.inl (by norm_num [abs_lt])) (by norm_num)
  have h4 : f32 (50 * (1 / 2)) = 25 := by
    exact f32_eq _ _ (4) (-19) (13107200) (by norm_num [abs_of_pos])
      (by norm_num [abs_of_pos]) (by norm_num) (Or.inl (by norm_num [abs_lt])) (by norm_num)
  have h5 : f32 (25 - 25) = 0 := by
    rw [show ((25 - 25) : ℚ) = 0 by norm_num]
    exact f32_zero
  rw [h1, h2, h3, h4, h5]

theorem advance_threshold : fsub (f32 (13107203 / 524288)) (fmul (f32 50) (f32 (4194305 / 8388608))) = 0 := by
  simp only [fsub, fmul]
  have h1 : f32 (13107203 / 524288) = (13107203 / 524288) := by
    exact f32_eq _ _ (4) (-19) (13107203) (by norm_num [abs_of_pos])
      (by norm_num [abs_of_pos]) (by norm_num) (Or.inl (by norm_num [abs_lt])) (by norm_num)
  have h2 : f32 (50) = 50 := by
    exact f32_eq _ _ (5) (-18) (13107200) (by norm_num [abs_of_pos])
      (by norm_num [abs_of_pos]) (by norm_num) (Or.inl (by norm_num [abs_lt])) (by norm_num)
  have h3 : f32 (4194305 / 8388608) = (4194305 / 8388608) := by
    exact f32_eq _ _ (-1) (-24) (8388610) (by norm_num [abs_of_pos])
      (by norm_num [abs_of_pos]) (by norm_num) (Or.inl (by norm_num [abs_lt])) (by norm_num)
  have h4 : f32 (50 * (4194305 / 8388608)) = (13107203 / 524288) := by
    exact f32_eq _ _ (4) (-19) (13107203) (by norm_num [abs_of_pos])
      (by norm_num [abs_of_pos]) (by norm_num) (Or.inl (by norm_num [abs_lt])) (by norm_num)
  have h5 : f32 ((13107203 / 524288) - (13107203 / 524288)) = 0 := by
    rw [show (((13107203 / 524288) - (13107203 / 524288)) : ℚ) = 0 by norm_num]
    exact f32_zero
  rw [h1, h2, h3, h4, h5]

theorem advance_ordinary : fsub (f32 600) (fmul (f32 50) (f32 (4369 / 262144))) = (9816747 / 16384) := by
  simp only [fsub, fmul]
  have h1 : f32 (600) = 600 := by
    exact f32_eq _ _ (9) (-14) (9830400) (by norm_num [abs_of_pos])
      (by norm_num [abs_of_pos]) (by norm_num) (Or.inl (by norm_num [abs_lt])) (by norm_num)
  have h2 : f32 (50) = 50 := by
    exact f32_eq _ _ (5) (-18) (13107200) (by norm_num [abs_of_pos])
      (by norm_num [abs_of_pos]) (by norm_num) (Or.inl (by norm_num [abs_lt])) (by norm_num)
  have h3 : f32 (4369 / 262144) = (4369 / 262144) := by
    exact f32_eq _ _ (-6) (-29) (8947712) (by norm_num [abs_of_pos])
      (by norm_num [abs_of_pos]) (by norm_num) (Or.inl (by norm_num [abs_lt])) (by norm_num)
  have h4 : f32 (50 * (4369 / 262144)) = (109225 / 131072) := by
    exact f32_eq _ _ (-1) (-24) (13980800) (by norm_num [abs_of_pos])
      (by norm_num [abs_of_pos]) (by norm_num) (Or.inl (by norm_num [abs_lt])) (by norm_num)
  have h5 : f32 (600 - (109225 / 131072)) = (9816747 / 16384) := by
    exact f32_eq _ _ (9) (-14) (9816747) (by norm_num [abs_of_pos])
      (by norm_num [abs_of_pos]) (by norm_num) (Or.inl (by norm_num [abs_lt])) (by norm_num)
  rw [h1, h2, h3, h4, h5]

theorem advance_late : fsub (f32 600) (fmul (f32 50) (f32 (2185 / 131072))) = (1227093 / 2048) := by
  simp only [fsub, fmul]
  have h1 : f32 (600) = 600 := by
    exact f32_eq _ _ (9) (-14) (9830400) (by norm_num [abs_of_pos])
      (by norm_num [abs_of_pos]) (by norm_num) (Or.inl (by norm_num [abs_lt])) (by norm_num)
  have h2 : f32 (50) = 50 := by
    exact f32_eq _ _ (5) (-18) (13107200) (by norm_num [abs_of_pos])
      (by norm_num [abs_of_pos]) (by norm_num) (Or.inl (by norm_num [abs_lt])) (by norm_num)
  have h3 : f32 (2185 / 131072) = (2185 / 131072) := by
    exact f32_eq _ _ (-6) (-29) (8949760) (by norm_num [abs_of_pos])
      (by norm_num [abs_of_pos]) (by norm_num) (Or.inl (by norm_num [abs_lt])) (by norm_num)
  have h4 : f32 (50 * (2185 / 131072)) = (54625 / 65536) := by
    exact f32_eq _ _ (-1) (-24) (13984000) (by norm_num [abs_of_pos])
      (by norm_num [abs_of_pos]) (by norm_num) (Or.inl (by norm_num [abs_lt])) (by norm_num)
  have h5 : f32 (600 - (54625 / 65536)) = (1227093 / 2048) := by
    exact f32_eq _ _ (9) (-14) (9816744) (by norm_num [abs_of_pos])
      (by norm_num [abs_of_pos]) (by norm_num) (Or.inl (by norm_num [abs_lt])) (by norm_num)
  rw [h1, h2, h3, h4, h5]

theorem f32_threshold_y : f32 (13107203 / 524288) = (13107203 / 524288) := by
  have h1 : f32 (13107203 / 524288) = (13107203 / 524288) := by
    exact f32_eq _ _ (4) (-19) (13107203) (by norm_num [abs_of_pos])
      (by norm_num [abs_of_pos]) (by norm_num) (Or.inl (by norm_num [abs_lt])) (by norm_num)
  rw [h1]

theorem f32_threshold_dt : f32 (4194305 / 8388608) = (4194305 / 8388608) := by
  have h1 : f32 (4194305 / 8388608) = (4194305 / 8388608) := by
    exact f32_eq _ _ (-1) (-24) (8388610) (by norm_num [abs_of_pos])
      (by norm_num [abs_of_pos]) (by norm_num) (Or.inl (by norm_num [abs_lt])) (by norm_num)
  rw [h1]

theorem f32_ordinary_dt : f32 (4369 / 262144) = (4369 / 262144) := by
  have h1 : f32 (4369 / 262144) = (4369 / 262144) := by
    exact f32_eq _ _ (-6) (-29) (8947712) (by norm_num [abs_of_pos])
      (by norm_num [abs_of_pos]) (by norm_num) (Or.inl (by norm_num [abs_lt])) (by norm_num)
  rw [h1]

theorem f32_late_clock : f32 (13109385 / 131072) = (13109385 / 131072) := by
  have h1 : f32 (13109385 / 131072) = (13109385 / 131072) := by
    exact f32_eq _ _ (6) (-17) (13109385) (by norm_num [abs_of_pos])
      (by norm_num [abs_of_pos]) (by norm_num) (Or.inl (by norm_num [abs_lt])) (by norm_num)
  rw [h1]

/-- C6, as stated, fails on `float` inputs.  With `y = 13107203/2^19`, speed
50 and `dt = 4194305/2^23` (all three are `float` values) the exact
`y - speed*dt` is `-2^-22`, strictly below 0, but the code rounds the product
`speed*dt` to `y`, stores `y = 0` and keeps the entity.  With `y = 600` and
`dt = 4369/2^18` the code stores `9816747/2^14`, which is not the exact
`y - speed*dt = 78533975/2^17`. -/
theorem updateFallingTexts_counterexample :
    f32 (13107203 / 524288) = 13107203 / 524288
    ∧ f32 (4194305 / 8388608) = 4194305 / 8388608
    ∧ (13107203 / 524288 : ℚ) - 50 * (4194305 / 8388608) < 0
    ∧ updateFallingTexts (4194305 / 8388608) [hazardAt (13107203 / 524288)] = [hazardAt 0]
    ∧ f32 (4369 / 262144) = 4369 / 262144
    ∧ updateFallingTexts (4369 / 262144) [hazardAt 600] = [hazardAt (9816747 / 16384)]
    ∧ (9816747 / 16384 : ℚ) ≠ 600 - 50 * (4369 / 262144) := by
  have e1 : advanceText (4194305 / 8388608) (hazardAt (13107203 / 524288)) = hazardAt 0 :=
    advanceText_eval _ _ _ advance_threshold
  have e2 : advanceText (4369 / 262144) (hazardAt 600) = hazardAt (9816747 / 16384) :=
    advanceText_eval _ _ _ advance_ordinary
  refine ⟨f32_threshold_y, f32_threshold_dt, by norm_num, ?_, f32_ordinary_dt, ?_, by norm_num⟩
  · rw [updateFallingTexts_cons, updateFallingTexts_nil, e1, if_neg (by norm_num [hazardAt])]
  · rw [updateFallingTexts_cons, updateFallingTexts_nil, e2, if_neg (by norm_num [hazardAt])]

/-- C6, amended. Advance-and-prune: the registry step replaces every entity's
`y` by the `float` result of `y - speed * dt` (the product rounded to nearest,
then the difference rounded to nearest) and then keeps, in order, exactly the
entities whose stored `y` is not strictly below 0; an updated entity is absent
from the result if and only if its stored `y` is strictly less than 0, and
one whose stored `y` is exactly 0 is kept.  Where the `float` result is the
exact `y - speed * dt`, this is the exact statement. -/
theorem updateFallingTexts_advance_prune (deltaTime : ℚ) (texts : List FallingText) :
    updateFallingTexts deltaTime texts
        = (texts.map (fun t =>
              { t with y := fsub (f32 t.y) (fmul (f32 t.speed) (f32 deltaTime)) })).filter
            (fun t => decide (¬ t.y < 0))
    ∧ (∀ t ∈ texts,
        ({ t with y := fsub (f32 t.y) (fmul (f32 t.speed) (f32 deltaTime)) }
            ∉ updateFallingTexts deltaTime texts ↔
          fsub (f32 t.y) (fmul (f32 t.speed) (f32 deltaTime)) < 0))
    ∧ (∀ t ∈ texts, fsub (f32 t.y) (fmul (f32 t.speed) (f32 deltaTime)) = 0 →
        { t with y := 0 } ∈ updateFallingTexts deltaTime texts)
    ∧ (∀ u ∈ updateFallingTexts deltaTime texts,
        ∃ t ∈ texts,
          u = { t with y := fsub (f32 t.y) (fmul (f32 t.speed) (f32 deltaTime)) } ∧ 0 ≤ u.y)
    ∧ (∀ t ∈ texts,
        fsub (f32 t.y) (fmul (f32 t.speed) (f32 deltaTime)) = t.y - t.speed * deltaTime →
        ({ t with y := t.y - t.speed * deltaTime } ∉ updateFallingTexts deltaTime texts ↔
          t.y - t.speed * deltaTime < 0)) := by
  have key : updateFallingTexts deltaTime texts
        = (texts.map (fun t =>
              { t with y := fsub (f32 t.y) (fmul (f32 t.speed) (f32 deltaTime)) })).filter
            (fun t => decide (¬ t.y < 0)) := updateFallingTexts_eq_filter deltaTime texts
  have absent : ∀ t ∈ texts,
        ({ t with y := fsub (f32 t.y) (fmul (f32 t.speed) (f32 deltaTime)) }
            ∉ updateFallingTexts deltaTime texts ↔
          fsub (f32 t.y) (fmul (f32 t.speed) (f32 deltaTime)) < 0) := by
    intro t ht
    rw [key, List.mem_filter]
    constructor
    · intro h
      by_contra hlt
      exact h ⟨List.mem_map.mpr ⟨t, ht, rfl⟩, by simpa using hlt⟩
    · rintro h ⟨_, h2⟩
      simp only [not_lt, decide_eq_true_eq] at h2
      exact absurd h (not_lt.mpr h2)
  refine ⟨key, absent, ?_, ?_, ?_⟩
  · intro t ht h0
    rw [key, List.mem_filter]
    refine ⟨List.mem_map.mpr ⟨t, ht, by rw [h0]⟩, by simp⟩
  · intro u hu
    rw [key, List.mem_filter] at hu
    obtain ⟨hm, hy⟩ := hu
    obtain ⟨t, ht, rfl⟩ := List.mem_map.mp hm
    exact ⟨t, ht, rfl, by simpa using hy⟩
  · intro t ht hexact
    have := absent t ht
    rw [hexact] at this
    exact this

/-- C6, amended, at a concrete input: an entity at `y = 25` falling at 50
pixels per second reaches exactly `y = 0` after half a second (the `float`
computation is exact here) and is kept. -/
theorem updateFallingTexts_witness :
    fsub (f32 25) (fmul (f32 50) (f32 (1 / 2))) = 0
    ∧ ({ text := "abc".toList, x := 150, y := 0, speed := 50, r := 1, g := 0, b := 0 }
        : FallingText)
      ∈ updateFallingTexts (1 / 2)
          [{ text := "abc".toList, x := 150, y := 25, speed := 50, r := 1, g := 0, b := 0 }] :=
  ⟨advance_25,
   (updateFallingTexts_advance_prune (1 / 2)
      [{ text := "abc".toList, x := 150, y := 25, speed := 50, r := 1, g := 0, b := 0 }]).2.2.1
      _ (List.mem_singleton.mpr rfl) advance_25⟩

theorem updateFallingTexts_hazardAt :
    updateFallingTexts (1 / 2) [hazardAt 200] = [hazardAt 175] := by
  have e : advanceText (1 / 2) (hazardAt 200) = hazardAt 175 :=
    advanceText_eval _ _ _ advance_200
  rw [updateFallingTexts_cons, updateFallingTexts_nil, e, if_neg (by norm_num [hazardAt])]

theorem updateFallingTexts_benignAt :
    updateFallingTexts (1 / 2) [benignAt 200, benignAt 190] = [benignAt 175, benignAt 165] := by
  have e1 : advanceText (1 / 2) (benignAt 200) = benignAt 175 :=
    advanceText_eval _ _ _ advance_200
  have e2 : advanceText (1 / 2) (benignAt 190) = benignAt 165 :=
    advanceText_eval _ _ _ advance_190
  rw [updateFallingTexts_cons, updateFallingTexts_cons, updateFallingTexts_nil, e1, e2,
    if_neg (by norm_num [benignAt]), if_neg (by norm_num [benignAt])]

theorem updateFallingTexts_longFrame :
    updateFallingTexts 5 [hazardAt 400] = [hazardAt 150] := by
  have e : advanceText 5 (hazardAt 400) = hazardAt 150 :=
    advanceText_eval _ _ _ advance_400
  rw [updateFallingTexts_cons, updateFallingTexts_nil, e, if_neg (by norm_num [hazardAt])]

theorem updateFallingTexts_gameOver :
    updateFallingTexts (1 / 2) [hazardAt 200, benignAt 10] = [hazardAt 175] := by
  have e1 : advanceText (1 / 2) (hazardAt 200) = hazardAt 175 :=
    advanceText_eval _ _ _ advance_200
  have e2 : advanceText (1 / 2) (benignAt 10) = benignAt (-15) :=
    advanceText_eval _ _ _ advance_10
  rw [updateFallingTexts_cons, updateFallingTexts_cons, updateFallingTexts_nil, e1, e2,
    if_neg (by norm_num [hazardAt]), if_pos (by norm_num [benignAt])]

/-! ## Frame loop: what each block leaves untouched -/

theorem reloadFiles_fields (inp : FrameInput) (deltaTime : ℚ) (s : GameState) :
    (reloadFiles inp deltaTime s).playerHealth = s.playerHealth
    ∧ (reloadFiles inp deltaTime s).isGameOver = s.isGameOver
    ∧ (reloadFiles inp deltaTime s).damageTimer = s.damageTimer
    ∧ (reloadFiles inp deltaTime s).playerX = s.playerX
    ∧ (reloadFiles inp deltaTime s).playerY = s.playerY
    ∧ (reloadFiles inp deltaTime s).fallingTexts = s.fallingTexts := by
  unfold reloadFiles
  dsimp only
  split_ifs <;> simp

theorem spawnFire_fields (s : GameState) :
    (spawnFire s).playerHealth = s.playerHealth
    ∧ (spawnFire s).isGameOver = s.isGameOver
    ∧ (spawnFire s).damageTimer = s.damageTimer
    ∧ (spawnFire s).playerX = s.playerX
    ∧ (spawnFire s).playerY = s.playerY := by
  unfold spawnFire
  dsimp only
  split_ifs <;> simp

theorem spawnText_fields (deltaTime : ℚ) (s : GameState) :
    (spawnText deltaTime s).playerHealth = s.playerHealth
    ∧ (spawnText deltaTime s).isGameOver = s.isGameOver
    ∧ (spawnText deltaTime s).damageTimer = s.damageTimer
    ∧ (spawnText deltaTime s).playerX = s.playerX
    ∧ (spawnText deltaTime s).playerY = s.playerY := by
  unfold spawnText
  dsimp only
  split_ifs
  · exact spawnFire_fields _
  · simp
  · simp

theorem applyDamage_fields (flag : Bool) (deltaTime : ℚ) (s : GameState) :
    (applyDamage flag deltaTime s).fallingTexts = s.fallingTexts
    ∧ (applyDamage flag deltaTime s).playerX = s.playerX
    ∧ (applyDamage flag deltaTime s).playerY = s.playerY := by
  unfold applyDamage
  dsimp only
  split_ifs <;> simp

theorem beforeDamage_fields (inp : FrameInput) (s : GameState) :
    (beforeDamage inp s).playerHealth = s.playerHealth
    ∧ (beforeDamage inp s).isGameOver = s.isGameOver
    ∧ (beforeDamage inp s).damageTimer = s.damageTimer := by
  unfold beforeDamage
  dsimp only
  refine ⟨?_, ?_, ?_⟩
  · rw [(spawnText_fields _ _).1, (reloadFiles_fields _ _ _).1]
  · rw [(spawnText_fields _ _).2.1, (reloadFiles_fields _ _ _).2.1]
  · rw [(spawnText_fields _ _).2.2.1, (reloadFiles_fields _ _ _).2.2.1]

theorem frame_eq (Characters : Glyphs) (inp : FrameInput) (s : GameState) :
    frame Characters inp s =
      { applyDamage
          (collisionScan Characters (beforeDamage inp s).playerX (beforeDamage inp s).playerY
            (beforeDamage inp s).fallingTexts).2
          (inp.currentFrame - s.lastFrame) (beforeDamage inp s) with
        shouldClose :=
          (applyDamage
            (collisionScan Characters (beforeDamage inp s).playerX (beforeDamage inp s).playerY
              (beforeDamage inp s).fallingTexts).2
            (inp.currentFrame - s.lastFrame) (beforeDamage inp s)).shouldClose
            || inp.closeRequested } := rfl

/-! ## Damage block -/

theorem applyDamage_cases (flag : Bool) (deltaTime : ℚ) (s : GameState) :
    ((applyDamage flag deltaTime s).playerHealth = s.playerHealth
        ∧ (applyDamage flag deltaTime s).isGameOver = s.isGameOver)
    ∨ (flag = true ∧ s.isGameOver = false ∧ s.damageTimer + deltaTime ≥ damageInterval
        ∧ ((0 < s.playerHealth - damageAmount
              ∧ (applyDamage flag deltaTime s).playerHealth = s.playerHealth - damageAmount
              ∧ (applyDamage flag deltaTime s).isGameOver = false)
            ∨ (s.playerHealth - damageAmount ≤ 0
              ∧ (applyDamage flag deltaTime s).playerHealth = 0
              ∧ (applyDamage flag deltaTime s).isGameOver = true))) := by
  unfold applyDamage
  dsimp only
  split_ifs with h1 h2 h3
  · right
    simp only [Bool.and_eq_true, Bool.not_eq_true'] at h1
    exact ⟨h1.1, h1.2, h2, Or.inr ⟨h3, rfl, rfl⟩⟩
  · right
    simp only [Bool.and_eq_true, Bool.not_eq_true'] at h1
    exact ⟨h1.1, h1.2, h2, Or.inl ⟨lt_of_not_ge h3, rfl, h1.2⟩⟩
  · left; exact ⟨rfl, rfl⟩
  · left; exact ⟨rfl, rfl⟩

theorem collisionScan_snd_aux (Characters : Glyphs) (playerX playerY : ℚ)
    (texts : List FallingText) (init : Bool × Bool) :
    (texts.foldl
        (fun flags text =>
          if checkCollision Characters playerX playerY (1 / 20) text.x text.y text.text (1 / 2) then
            (true, if text.r == 1 && text.g == 0 && text.b == 0 then true else flags.2)
          else flags)
        init).2 = true ↔
      init.2 = true ∨ ∃ t ∈ texts, t.colour = hazardColour ∧
        checkCollision Characters playerX playerY (1 / 20) t.x t.y t.text (1 / 2) = true := by
  induction texts generalizing init with
  | nil => simp
  | cons t ts ih =>
    rw [List.foldl_cons, ih]
    have hcol : (t.r == 1 && t.g == 0 && t.b == 0) = true ↔ t.colour = hazardColour := by
      simp [FallingText.colour, hazardColour, and_assoc]
    by_cases hc : checkCollision Characters playerX playerY (1 / 20) t.x t.y t.text (1 / 2) = true
    · by_cases hr : (t.r == 1 && t.g == 0 && t.b == 0) = true
      · have hr' := hcol.mp hr
        simp only [hc, hr, if_true, List.mem_cons, exists_eq_or_imp, hr', true_and, true_or,
          or_true]
      · have hr' : ¬ t.colour = hazardColour := fun h => hr (hcol.mpr h)
        simp only [hc, hr, if_true, List.mem_cons, exists_eq_or_imp, hr', false_and, false_or]
        simp
    · simp only [hc, List.mem_cons, exists_eq_or_imp, and_false, false_or]
      simp

theorem collisionScan_snd (Characters : Glyphs) (playerX playerY : ℚ)
    (texts : List FallingText) :
    (collisionScan Characters playerX playerY texts).2 = true ↔
      ∃ t ∈ texts, t.colour = hazardColour ∧
        checkCollision Characters playerX playerY (1 / 20) t.x t.y t.text (1 / 2) = true := by
  unfold collisionScan
  rw [collisionScan_snd_aux]
  simp

/-! ## Health and game over along the frame loop -/

theorem frame_damage (Characters : Glyphs) (inp : FrameInput) (s : GameState) :
    (frame Characters inp s).playerHealth
        = (applyDamage
            (collisionScan Characters (beforeDamage inp s).playerX (beforeDamage inp s).playerY
              (beforeDamage inp s).fallingTexts).2
            (inp.currentFrame - s.lastFrame) (beforeDamage inp s)).playerHealth
    ∧ (frame Characters inp s).isGameOver
        = (applyDamage
            (collisionScan Characters (beforeDamage inp s).playerX (beforeDamage inp s).playerY
              (beforeDamage inp s).fallingTexts).2
            (inp.currentFrame - s.lastFrame) (beforeDamage inp s)).isGameOver := by
  rw [frame_eq]
  exact ⟨rfl, rfl⟩

theorem frame_cases (Characters : Glyphs) (inp : FrameInput) (s : GameState) :
    ((frame Characters inp s).playerHealth = s.playerHealth
        ∧ (frame Characters inp s).isGameOver = s.isGameOver)
    ∨ ((collisionScan Characters (beforeDamage inp s).playerX (beforeDamage inp s).playerY
          (beforeDamage inp s).fallingTexts).2 = true
        ∧ s.isGameOver = false
        ∧ ((0 < s.playerHealth - damageAmount
              ∧ (frame Characters inp s).playerHealth = s.playerHealth - damageAmount
              ∧ (frame Characters inp s).isGameOver = false)
            ∨ (s.playerHealth - damageAmount ≤ 0
              ∧ (frame Characters inp s).playerHealth = 0
              ∧ (frame Characters inp s).isGameOver = true))) := by
  obtain ⟨hh, hg⟩ := frame_damage Characters inp s
  obtain ⟨bh, bg, _⟩ := beforeDamage_fields inp s
  rw [hh, hg]
  rcases applyDamage_cases
      (collisionScan Characters (beforeDamage inp s).playerX (beforeDamage inp s).playerY
        (beforeDamage inp s).fallingTexts).2
      (inp.currentFrame - s.lastFrame) (beforeDamage inp s) with h | ⟨h1, h2, _, h4⟩
  · left
    rw [h.1, h.2, bh, bg]
    exact ⟨rfl, rfl⟩
  · right
    rw [bh] at h4
    rw [bg] at h2
    exact ⟨h1, h2, h4⟩

theorem frame_health_range (Characters : Glyphs) (inp : FrameInput) (s : GameState)
    (h : 0 ≤ s.playerHealth ∧ s.playerHealth ≤ maxHealth) :
    0 ≤ (frame Characters inp s).playerHealth ∧ (frame Characters inp s).playerHealth ≤ maxHealth := by
  rcases frame_cases Characters inp s with h1 | ⟨_, _, h3 | h3⟩
  · rw [h1.1]; exact h
  · rw [h3.2.1]
    have hd : damageAmount = 1 := rfl
    rw [hd] at h3 ⊢
    exact ⟨le_of_lt h3.1, by linarith [h.2]⟩
  · rw [h3.2.1]
    exact ⟨le_refl _, by norm_num [maxHealth]⟩

theorem run_health_range (Characters : Glyphs) (inputs : List FrameInput) (s : GameState)
    (h : 0 ≤ s.playerHealth ∧ s.playerHealth ≤ maxHealth) :
    0 ≤ (run Characters inputs s).playerHealth
    ∧ (run Characters inputs s).playerHealth ≤ maxHealth := by
  induction inputs generalizing s with
  | nil => exact h
  | cons inp rest ih =>
    rw [run]
    split_ifs
    · exact h
    · exact ih _ (frame_health_range Characters inp s h)

/-- C1. Health range invariant: from the initial state (health 100, not game
over), whatever the glyph table, the contents of the two files and the inputs
of the frames (clock readings, keys, reloaded file contents), the health at the
end of every frame lies between 0 and `maxHealth`. -/
theorem health_range_invariant (Characters : Glyphs) (redTextFile greenTextFile : List Char)
    (inputs : List FrameInput) :
    0 ≤ (run Characters inputs (initialState redTextFile greenTextFile)).playerHealth
    ∧ (run Characters inputs (initialState redTextFile greenTextFile)).playerHealth ≤ maxHealth :=
  run_health_range Characters inputs _ (by norm_num [initialState, maxHealth])

theorem frame_zero_gameOver (Characters : Glyphs) (inp : FrameInput) (s : GameState)
    (h : s.playerHealth = 0 → s.isGameOver = true) :
    (frame Characters inp s).playerHealth = 0 → (frame Characters inp s).isGameOver = true := by
  rcases frame_cases Characters inp s with h1 | ⟨_, _, h3 | h3⟩
  · rw [h1.1, h1.2]; exact h
  · rw [h3.2.1]
    intro h0
    rw [h0] at h3
    exact absurd h3.1 (lt_irrefl _)
  · intro _
    exact h3.2.2

theorem frame_gameOver_stays (Characters : Glyphs) (inp : FrameInput) (s : GameState)
    (h : s.isGameOver = true ∧ s.playerHealth = 0) :
    (frame Characters inp s).isGameOver = true ∧ (frame Characters inp s).playerHealth = 0 := by
  rcases frame_cases Characters inp s with h1 | ⟨_, h2, _⟩
  · rw [h1.1, h1.2]; exact h
  · rw [h.1] at h2
    exact absurd h2 (by decide)

theorem run_zero_gameOver (Characters : Glyphs) (inputs : List FrameInput) (s : GameState)
    (h : s.playerHealth = 0 → s.isGameOver = true) :
    (run Characters inputs s).playerHealth = 0 → (run Characters inputs s).isGameOver = true := by
  induction inputs generalizing s with
  | nil => exact h
  | cons inp rest ih =>
    rw [run]
    split_ifs
    · exact h
    · exact ih _ (frame_zero_gameOver Characters inp s h)

theorem run_gameOver_stays (Characters : Glyphs) (inputs : List FrameInput) (s : GameState)
    (h : s.isGameOver = true ∧ s.playerHealth = 0) :
    (run Characters inputs s).isGameOver = true ∧ (run Characters inputs s).playerHealth = 0 := by
  induction inputs generalizing s with
  | nil => exact h
  | cons inp rest ih =>
    rw [run]
    split_ifs
    · exact h
    · exact ih _ (frame_gameOver_stays Characters inp s h)

theorem initialState_health_ne_zero (redTextFile greenTextFile : List Char) :
    (initialState redTextFile greenTextFile).playerHealth = 0 →
      (initialState redTextFile greenTextFile).isGameOver = true := by
  intro h
  norm_num [initialState] at h

/-- C2. Game over is a one-way transition: along any run of frames that starts
in a state where zero health already comes with the game-over flag (the
initial state, whose health is 100, is one), if the health is 0 at the end of
some frame then the game-over flag is true at the end of that frame, and after
any further frames the flag is still true and the health still exactly 0. -/
theorem gameOver_one_way (Characters : Glyphs) (s0 : GameState)
    (inputs later : List FrameInput)
    (hstart : s0.playerHealth = 0 → s0.isGameOver = true)
    (hzero : (run Characters inputs s0).playerHealth = 0) :
    (run Characters inputs s0).isGameOver = true
    ∧ (run Characters later (run Characters inputs s0)).isGameOver = true
    ∧ (run Characters later (run Characters inputs s0)).playerHealth = 0 := by
  have hg := run_zero_gameOver Characters inputs s0 hstart hzero
  exact ⟨hg, run_gameOver_stays Characters later _ ⟨hg, hzero⟩⟩

/-! ## Concrete frames -/

theorem beforeDamage_idle (health : ℚ) (texts : List FallingText) :
    beforeDamage (idleInput (1 / 2))
        { initialState [] [] with playerHealth := health, fallingTexts := texts }
      = { initialState [] [] with
          playerHealth := health
          lastFrame := 1 / 2
          fileReloadTimer := 1 / 2
          useFirstFile := false
          fallingTexts := updateFallingTexts (1 / 2) texts } := by
  have hr : readAllLines [] = [] := by decide
  simp [beforeDamage, idleInput, initialState, processInput, reloadFiles,
    fileReloadInterval, spawnText, textSpawnInterval, spawnFire, getNextLine, hr]
  norm_num

theorem lastHit_frame :
    (frame wideGlyphs (idleInput (1 / 2)) lastHitState).playerHealth = 0 := by
  have hb := beforeDamage_idle 1 [hazardAt 200]
  rw [updateFallingTexts_hazardAt] at hb
  have hs : (collisionScan wideGlyphs 0 (-(7 / 10)) [hazardAt 175]).2 = true := by
    rw [collisionScan_snd]
    exact ⟨hazardAt 175, List.mem_singleton.mpr rfl, rfl,
      checkCollision_wide 175 f32_175 (fadd_175_24.trans (by norm_num))
        (by norm_num) (by norm_num)⟩
  rw [(frame_damage _ _ _).1]
  unfold lastHitState
  rw [hb]
  simp only [initialState, idleInput, hs, applyDamage, damageInterval, damageAmount]
  norm_num

theorem lastHit_run :
    run wideGlyphs [idleInput (1 / 2)] lastHitState
      = frame wideGlyphs (idleInput (1 / 2)) lastHitState := by
  simp [run, lastHitState, initialState]

/-- C2 at a concrete run: from a state with one point of health and a hazard
entity over the player, one half-second frame brings the health to 0 and sets
the flag; two further frames leave the flag set and the health at 0. -/
theorem gameOver_one_way_witness :
    lastHitState.playerHealth = 1
    ∧ lastHitState.isGameOver = false
    ∧ (run wideGlyphs [idleInput (1 / 2)] lastHitState).playerHealth = 0
    ∧ (run wideGlyphs [idleInput (1 / 2)] lastHitState).isGameOver = true
    ∧ (run wideGlyphs [idleInput 1, idleInput 2]
        (run wideGlyphs [idleInput (1 / 2)] lastHitState)).isGameOver = true
    ∧ (run wideGlyphs [idleInput 1, idleInput 2]
        (run wideGlyphs [idleInput (1 / 2)] lastHitState)).playerHealth = 0 :=
  have hzero : (run wideGlyphs [idleInput (1 / 2)] lastHitState).playerHealth = 0 := by
    rw [lastHit_run]; exact lastHit_frame
  ⟨rfl, rfl, hzero,
    gameOver_one_way wideGlyphs lastHitState [idleInput (1 / 2)] [idleInput 1, idleInput 2]
      (by norm_num [lastHitState, initialState]) hzero⟩

/-- Game over is one-way along the runs of the program itself, which start in
the initial state: zero health at the end of a frame comes with the flag, and
both persist. -/
theorem gameOver_one_way_from_start (Characters : Glyphs) (redTextFile greenTextFile : List Char)
    (inputs later : List FrameInput)
    (hzero : (run Characters inputs (initialState redTextFile greenTextFile)).playerHealth = 0) :
    (run Characters inputs (initialState redTextFile greenTextFile)).isGameOver = true
    ∧ (run Characters later
        (run Characters inputs (initialState redTextFile greenTextFile))).isGameOver = true
    ∧ (run Characters later
        (run Characters inputs (initialState redTextFile greenTextFile))).playerHealth = 0 := by
  have hg := run_zero_gameOver Characters inputs _
    (initialState_health_ne_zero redTextFile greenTextFile) hzero
  exact ⟨hg, run_gameOver_stays Characters later _ ⟨hg, hzero⟩⟩

/-! ## Benign text -/

theorem frame_view (Characters : Glyphs) (inp : FrameInput) (s : GameState) :
    (frame Characters inp s).fallingTexts = (beforeDamage inp s).fallingTexts
    ∧ (frame Characters inp s).playerX = (beforeDamage inp s).playerX
    ∧ (frame Characters inp s).playerY = (beforeDamage inp s).playerY := by
  rw [frame_eq]
  exact applyDamage_fields _ _ _

/-- C5. Benign text causes no damage: the health at the end of a frame differs
from the health at its start only if, in the list left by the frame's
advance-and-prune step (which is the frame's final list), some entity of
colour exactly `(1,0,0)` overlaps the player according to `checkCollision`;
if every live entity has the benign colour `(0,1,0)` the health is unchanged,
whether or not they overlap the player. -/
theorem benign_text_no_damage (Characters : Glyphs) (inp : FrameInput) (s : GameState) :
    ((frame Characters inp s).playerHealth ≠ s.playerHealth →
        ∃ t ∈ (frame Characters inp s).fallingTexts,
          t.colour = hazardColour ∧
          checkCollision Characters (frame Characters inp s).playerX
            (frame Characters inp s).playerY (1 / 20) t.x t.y t.text (1 / 2) = true)
    ∧ ((∀ t ∈ (frame Characters inp s).fallingTexts, t.colour = benignColour) →
        (frame Characters inp s).playerHealth = s.playerHealth)
    ∧ (frame Characters inp s).fallingTexts
        = updateFallingTexts (inp.currentFrame - s.lastFrame)
            (spawnText (inp.currentFrame - s.lastFrame)
              (reloadFiles inp (inp.currentFrame - s.lastFrame)
                { s with
                  lastFrame := inp.currentFrame
                  shouldClose := s.shouldClose || inp.keyEscape
                  playerX := processInput inp.keyLeft inp.keyRight s.playerX
                    (inp.currentFrame - s.lastFrame) })).fallingTexts := by
  obtain ⟨hf, hx, hy⟩ := frame_view Characters inp s
  have key : (frame Characters inp s).playerHealth ≠ s.playerHealth →
        ∃ t ∈ (frame Characters inp s).fallingTexts,
          t.colour = hazardColour ∧
          checkCollision Characters (frame Characters inp s).playerX
            (frame Characters inp s).playerY (1 / 20) t.x t.y t.text (1 / 2) = true := by
    intro hne
    rcases frame_cases Characters inp s with h1 | ⟨h2, _, _⟩
    · exact absurd h1.1 hne
    · rw [hf, hx, hy]
      exact (collisionScan_snd _ _ _ _).mp h2
  refine ⟨key, ?_, ?_⟩
  · intro hall
    by_contra hne
    obtain ⟨t, ht, hcol, _⟩ := key hne
    have hb := hall t ht
    rw [hcol] at hb
    simp [hazardColour, benignColour] at hb
  · rw [hf]
    rfl

/-- C5 at a concrete frame: two benign entities overlap the player at the end
of the frame and the health stays at 100. -/
theorem benign_text_no_damage_witness :
    (frame wideGlyphs (idleInput (1 / 2)) benignContactState).fallingTexts
        = [benignAt 175, benignAt 165]
    ∧ checkCollision wideGlyphs (frame wideGlyphs (idleInput (1 / 2)) benignContactState).playerX
        (frame wideGlyphs (idleInput (1 / 2)) benignContactState).playerY (1 / 20)
        (benignAt 175).x (benignAt 175).y (benignAt 175).text (1 / 2) = true
    ∧ checkCollision wideGlyphs (frame wideGlyphs (idleInput (1 / 2)) benignContactState).playerX
        (frame wideGlyphs (idleInput (1 / 2)) benignContactState).playerY (1 / 20)
        (benignAt 165).x (benignAt 165).y (benignAt 165).text (1 / 2) = true
    ∧ (frame wideGlyphs (idleInput (1 / 2)) benignContactState).playerHealth = 100 := by
  have hb := beforeDamage_idle 100 [benignAt 200, benignAt 190]
  rw [updateFallingTexts_benignAt] at hb
  obtain ⟨hf, hx, hy⟩ := frame_view wideGlyphs (idleInput (1 / 2)) benignContactState
  have hf' : (frame wideGlyphs (idleInput (1 / 2)) benignContactState).fallingTexts
      = [benignAt 175, benignAt 165] := by
    rw [hf]; unfold benignContactState; rw [hb]
  have hx' : (frame wideGlyphs (idleInput (1 / 2)) benignContactState).playerX = 0 := by
    rw [hx]; unfold benignContactState; rw [hb]; rfl
  have hy' : (frame wideGlyphs (idleInput (1 / 2)) benignContactState).playerY = -(7 / 10) := by
    rw [hy]; unfold benignContactState; rw [hb]; rfl
  refine ⟨hf', ?_, ?_, ?_⟩
  · rw [hx', hy']
    exact checkCollision_wide 175 f32_175 (fadd_175_24.trans (by norm_num))
        (by norm_num) (by norm_num)
  · rw [hx', hy']
    exact checkCollision_wide 165 f32_165 (fadd_165_24.trans (by norm_num))
        (by norm_num) (by norm_num)
  · refine ((benign_text_no_damage wideGlyphs (idleInput (1 / 2)) benignContactState).2.1 ?_).trans
      rfl
    intro t ht
    rw [hf'] at ht
    simp only [List.mem_cons, List.mem_singleton, List.not_mem_nil, or_false] at ht
    rcases ht with rfl | rfl <;> rfl

/-! ## Damage accumulation -/

theorem applyDamage_gameOver (flag : Bool) (deltaTime : ℚ) (s : GameState)
    (hg : s.isGameOver = true) :
    (applyDamage flag deltaTime s).playerHealth = s.playerHealth
    ∧ (applyDamage flag deltaTime s).damageTimer = 0
    ∧ (applyDamage flag deltaTime s).isGameOver = true := by
  unfold applyDamage
  simp [hg]

theorem applyDamage_no_contact (deltaTime : ℚ) (s : GameState) :
    (applyDamage false deltaTime s).playerHealth = s.playerHealth
    ∧ (applyDamage false deltaTime s).damageTimer = 0
    ∧ (applyDamage false deltaTime s).isGameOver = s.isGameOver := by
  unfold applyDamage
  simp

theorem applyDamage_wait (deltaTime : ℚ) (s : GameState)
    (hg : s.isGameOver = false) (ht : s.damageTimer + deltaTime < damageInterval) :
    (applyDamage true deltaTime s).playerHealth = s.playerHealth
    ∧ (applyDamage true deltaTime s).damageTimer = s.damageTimer + deltaTime
    ∧ (applyDamage true deltaTime s).isGameOver = false := by
  unfold applyDamage
  simp [hg, not_le.mpr ht]

theorem applyDamage_hit (deltaTime : ℚ) (s : GameState)
    (hg : s.isGameOver = false) (ht : damageInterval ≤ s.damageTimer + deltaTime) :
    (applyDamage true deltaTime s).playerHealth = max (s.playerHealth - damageAmount) 0
    ∧ (applyDamage true deltaTime s).damageTimer = 0
    ∧ (applyDamage true deltaTime s).isGameOver = decide (s.playerHealth - damageAmount ≤ 0) := by
  unfold applyDamage
  by_cases hh : s.playerHealth - damageAmount ≤ 0
  · simp [hg, ht, hh]
  · simp [hg, ht, hh, le_of_lt (not_le.mp hh)]

/-- One damage block never raises the health, keeps the timer non-negative,
and pays for every lost point of health with half a second of elapsed time. -/
theorem applyDamage_bound (flag : Bool) (deltaTime : ℚ) (s : GameState)
    (hd : 0 ≤ deltaTime) (ht : 0 ≤ s.damageTimer) (hh : 0 ≤ s.playerHealth) :
    (s.playerHealth - (applyDamage flag deltaTime s).playerHealth) * damageInterval
        + (applyDamage flag deltaTime s).damageTimer ≤ s.damageTimer + deltaTime
    ∧ 0 ≤ (applyDamage flag deltaTime s).damageTimer
    ∧ (applyDamage flag deltaTime s).playerHealth ≤ s.playerHealth
    ∧ 0 ≤ (applyDamage flag deltaTime s).playerHealth := by
  have hi : damageInterval = 1 / 2 := rfl
  have ha : damageAmount = 1 := rfl
  cases flag with
  | false =>
    obtain ⟨h1, h2, _⟩ := applyDamage_no_contact deltaTime s
    rw [h1, h2]
    refine ⟨by linarith, le_refl _, le_refl _, hh⟩
  | true =>
    cases hg : s.isGameOver with
    | true =>
      obtain ⟨h1, h2, _⟩ := applyDamage_gameOver true deltaTime s hg
      rw [h1, h2]
      refine ⟨by linarith, le_refl _, le_refl _, hh⟩
    | false =>
      by_cases hf : damageInterval ≤ s.damageTimer + deltaTime
      · obtain ⟨h1, h2, _⟩ := applyDamage_hit deltaTime s hg hf
        rw [h1, h2, ha]
        rw [hi] at hf ⊢
        rcases max_cases (s.playerHealth - 1) 0 with ⟨hm, hle⟩ | ⟨hm, hle⟩
        · rw [hm]
          refine ⟨by linarith, le_refl _, by linarith, hle⟩
        · rw [hm]
          refine ⟨by linarith, le_refl _, hh, le_refl _⟩
      · obtain ⟨h1, h2, _⟩ := applyDamage_wait deltaTime s hg (not_le.mp hf)
        rw [h1, h2]
        refine ⟨by linarith, by linarith, le_refl _, hh⟩

theorem damageRun_cons (d : ℚ) (dts : List ℚ) (s : GameState) :
    damageRun (d :: dts) s = damageRun dts (applyDamage true d s) := rfl

theorem damageRun_append (as bs : List ℚ) (s : GameState) :
    damageRun (as ++ bs) s = damageRun bs (damageRun as s) := by
  unfold damageRun
  rw [List.foldl_append]

theorem damageRun_bound (dts : List ℚ) (s : GameState)
    (hd : ∀ d ∈ dts, 0 ≤ d) (ht : 0 ≤ s.damageTimer) (hh : 0 ≤ s.playerHealth) :
    (s.playerHealth - (damageRun dts s).playerHealth) * damageInterval
        + (damageRun dts s).damageTimer ≤ s.damageTimer + dts.sum
    ∧ 0 ≤ (damageRun dts s).damageTimer
    ∧ (damageRun dts s).playerHealth ≤ s.playerHealth
    ∧ 0 ≤ (damageRun dts s).playerHealth := by
  induction dts generalizing s with
  | nil =>
    simp only [damageRun, List.foldl_nil, List.sum_nil]
    refine ⟨by linarith, ht, le_refl _, hh⟩
  | cons d rest ih =>
    rw [damageRun_cons, List.sum_cons]
    obtain ⟨a1, a2, a3, a4⟩ := applyDamage_bound true d s (hd d (List.mem_cons_self _ _)) ht hh
    obtain ⟨b1, b2, b3, b4⟩ := ih (applyDamage true d s)
      (fun x hx => hd x (List.mem_cons_of_mem _ hx)) a2 a4
    refine ⟨by linarith, b2, by linarith, b4⟩

theorem damageRun_first_hit (dts : List ℚ) (s : GameState)
    (hd : ∀ d ∈ dts, 0 ≤ d) (hg : s.isGameOver = false)
    (ht : 0 ≤ s.damageTimer) (ht' : s.damageTimer < damageInterval)
    (hsum : damageInterval ≤ s.damageTimer + dts.sum) (hh : damageAmount ≤ s.playerHealth) :
    (damageRun dts s).playerHealth ≤ s.playerHealth - damageAmount := by
  induction dts generalizing s with
  | nil =>
    simp only [List.sum_nil, add_zero] at hsum
    exact absurd ht' (not_lt.mpr hsum)
  | cons d rest ih =>
    rw [damageRun_cons]
    have hd0 := hd d (List.mem_cons_self _ _)
    have hrest : ∀ x ∈ rest, 0 ≤ x := fun x hx => hd x (List.mem_cons_of_mem _ hx)
    by_cases hf : damageInterval ≤ s.damageTimer + d
    · obtain ⟨h1, h2, _⟩ := applyDamage_hit d s hg hf
      have hb := (damageRun_bound rest (applyDamage true d s) hrest (by rw [h2])
        (by rw [h1]; exact le_max_right _ _)).2.2.1
      rw [h1, max_eq_left (by linarith)] at hb
      exact hb
    · obtain ⟨h1, h2, h3⟩ := applyDamage_wait d s hg (not_le.mp hf)
      have := ih (applyDamage true d s) hrest h3 (by rw [h2]; linarith)
        (by rw [h2]; exact not_le.mp hf)
        (by rw [h2]; rw [List.sum_cons] at hsum; linarith) (by rw [h1]; exact hh)
      rw [h1] at this
      exact this

/-- A group of positive frame deltas that brings the damage timer to exactly
the damage interval makes it fire once, at the group's last frame. -/
theorem damageRun_block (dts : List ℚ) (s : GameState)
    (hpos : ∀ d ∈ dts, 0 < d) (hne : dts ≠ []) (hg : s.isGameOver = false)
    (hsum : s.damageTimer + dts.sum = damageInterval) :
    (damageRun dts s).playerHealth = max (s.playerHealth - damageAmount) 0
    ∧ (damageRun dts s).damageTimer = 0
    ∧ (damageRun dts s).isGameOver = decide (s.playerHealth - damageAmount ≤ 0) := by
  induction dts generalizing s with
  | nil => exact absurd rfl hne
  | cons d rest ih =>
    rw [damageRun_cons]
    rw [List.sum_cons] at hsum
    have hrest : ∀ x ∈ rest, 0 < x := fun x hx => hpos x (List.mem_cons_of_mem _ hx)
    cases rest with
    | nil =>
      simp only [List.sum_nil, add_zero] at hsum
      simp only [damageRun, List.foldl_nil]
      exact applyDamage_hit d s hg (le_of_eq hsum.symm)
    | cons e es =>
      have hs : 0 < (e :: es).sum := by
        rw [List.sum_cons]
        have he := hrest e (List.mem_cons_self _ _)
        have hes : 0 ≤ es.sum :=
          List.sum_nonneg (fun x hx => le_of_lt (hrest x (List.mem_cons_of_mem _ hx)))
        linarith
      obtain ⟨h1, h2, h3⟩ := applyDamage_wait d s hg (by linarith)
      have := ih (applyDamage true d s) hrest (List.cons_ne_nil _ _) h3 (by rw [h2]; linarith)
      rw [h1] at this
      exact this

theorem sum_pos_ne_nil (dts : List ℚ) (h : dts.sum = 1 / 2) : dts ≠ [] := by
  intro he
  rw [he] at h
  norm_num at h

/-- C4, as stated, fails: three frames of 0.75 s, 0.75 s and 0.5 s (positive,
summing to 2.0 s) under continuous hazard contact, from the initial state
(damage timer 0, health 100, not game over), leave the health at 97: the
timer fires once per frame and its overshoot is discarded, so the health is
3.0 lower, not 4.0. -/
theorem damage_accumulation_counterexample :
    (∀ d ∈ [(3 / 4 : ℚ), 3 / 4, 1 / 2], 0 < d)
    ∧ [(3 / 4 : ℚ), 3 / 4, 1 / 2].sum = 2
    ∧ (initialState [] []).damageTimer = 0
    ∧ 4 ≤ (initialState [] []).playerHealth
    ∧ (initialState [] []).isGameOver = false
    ∧ (damageRun [3 / 4, 3 / 4, 1 / 2] (initialState [] [])).playerHealth = 97
    ∧ (damageRun [3 / 4, 3 / 4, 1 / 2] (initialState [] [])).playerHealth
        ≠ (initialState [] []).playerHealth - 4 := by
  have h : (damageRun [3 / 4, 3 / 4, 1 / 2] (initialState [] [])).playerHealth = 97 := by
    simp only [damageRun, List.foldl, applyDamage, initialState, damageInterval, damageAmount]
    norm_num
  refine ⟨?_, by norm_num, rfl, by norm_num [initialState], rfl, h, ?_⟩
  · intro d hd
    simp only [List.mem_cons, List.mem_singleton, List.not_mem_nil, or_false] at hd
    rcases hd with rfl | rfl | rfl <;> norm_num
  · rw [h]
    norm_num [initialState]

/-- C4, amended. Under continuous hazard contact over positive frame deltas
summing to 2.0 s, from damage timer 0, health at least 4 and not game over,
the health at the end is at most 4.0 lower than at the start (never 5.0) and
at least 1.0 lower; it is exactly 4.0 lower when the deltas split into four
consecutive groups each summing to exactly 0.5 s, so that the timer reaches
the interval exactly each time it fires. -/
theorem damage_accumulation (s : GameState) (dts : List ℚ)
    (hpos : ∀ d ∈ dts, 0 < d) (hsum : dts.sum = 2)
    (htimer : s.damageTimer = 0) (hhealth : 4 ≤ s.playerHealth)
    (hover : s.isGameOver = false) :
    s.playerHealth - 4 ≤ (damageRun dts s).playerHealth
    ∧ (damageRun dts s).playerHealth ≤ s.playerHealth - 1
    ∧ (∀ b1 b2 b3 b4 : List ℚ, dts = b1 ++ b2 ++ b3 ++ b4 →
        b1.sum = 1 / 2 → b2.sum = 1 / 2 → b3.sum = 1 / 2 → b4.sum = 1 / 2 →
        (damageRun dts s).playerHealth = s.playerHealth - 4) := by
  have hi : damageInterval = 1 / 2 := rfl
  have ha : damageAmount = 1 := rfl
  have hnn : ∀ d ∈ dts, 0 ≤ d := fun d hd => le_of_lt (hpos d hd)
  refine ⟨?_, ?_, ?_⟩
  · have hb := (damageRun_bound dts s hnn (by rw [htimer]) (by linarith)).1
    have ht := (damageRun_bound dts s hnn (by rw [htimer]) (by linarith)).2.1
    rw [hi, htimer, hsum] at hb
    linarith
  · have := damageRun_first_hit dts s hnn hover (by rw [htimer]) (by rw [htimer, hi]; norm_num)
      (by rw [htimer, hsum, hi]; norm_num) (by rw [ha]; linarith)
    rw [ha] at this
    exact this
  · intro b1 b2 b3 b4 hsplit e1 e2 e3 e4
    subst hsplit
    have p1 : ∀ d ∈ b1, 0 < d := fun d hd => hpos d (by simp [hd])
    have p2 : ∀ d ∈ b2, 0 < d := fun d hd => hpos d (by simp [hd])
    have p3 : ∀ d ∈ b3, 0 < d := fun d hd => hpos d (by simp [hd])
    have p4 : ∀ d ∈ b4, 0 < d := fun d hd => hpos d (by simp [hd])
    obtain ⟨x1, y1, z1⟩ := damageRun_block b1 s p1 (sum_pos_ne_nil b1 e1) hover
      (by rw [htimer, e1, hi]; norm_num)
    rw [ha, max_eq_left (by linarith)] at x1
    rw [ha, decide_eq_false (by linarith)] at z1
    obtain ⟨x2, y2, z2⟩ := damageRun_block b2 (damageRun b1 s) p2 (sum_pos_ne_nil b2 e2) z1
      (by rw [y1, e2, hi]; norm_num)
    rw [ha, x1, max_eq_left (by linarith)] at x2
    rw [ha, x1, decide_eq_false (by linarith)] at z2
    obtain ⟨x3, y3, z3⟩ := damageRun_block b3 (damageRun b2 (damageRun b1 s)) p3
      (sum_pos_ne_nil b3 e3) z2 (by rw [y2, e3, hi]; norm_num)
    rw [ha, x2, max_eq_left (by linarith)] at x3
    rw [ha, x2, decide_eq_false (by linarith)] at z3
    obtain ⟨x4, _, _⟩ := damageRun_block b4 (damageRun b3 (damageRun b2 (damageRun b1 s))) p4
      (sum_pos_ne_nil b4 e4) z3 (by rw [y3, e4, hi]; norm_num)
    rw [ha, x3, max_eq_left (by linarith)] at x4
    rw [damageRun_append, damageRun_append, damageRun_append, x4]
    ring

/-- C4, amended, at concrete inputs: eight frames of 0.25 s from the initial
state take the health from 100 to 96. -/
theorem damage_accumulation_witness :
    (damageRun [1 / 4, 1 / 4, 1 / 4, 1 / 4, 1 / 4, 1 / 4, 1 / 4, 1 / 4]
      (initialState [] [])).playerHealth = 96 := by
  have h := (damage_accumulation (initialState [] [])
    [1 / 4, 1 / 4, 1 / 4, 1 / 4, 1 / 4, 1 / 4, 1 / 4, 1 / 4]
    (by
      intro d hd
      simp only [List.mem_cons, List.mem_singleton, List.not_mem_nil, or_false] at hd
      rcases hd with rfl | rfl | rfl | rfl | rfl | rfl | rfl | rfl <;> norm_num)
    (by norm_num) rfl (by norm_num [initialState]) rfl).2.2
    [1 / 4, 1 / 4] [1 / 4, 1 / 4] [1 / 4, 1 / 4] [1 / 4, 1 / 4] rfl
    (by norm_num) (by norm_num) (by norm_num) (by norm_num)
  rw [h]
  norm_num [initialState]

/-! ## Source alternation -/

theorem alternatingColours_succ (k : Nat) :
    alternatingColours (k + 1)
      = alternatingColours k ++ [if k % 2 = 0 then hazardColour else benignColour] := by
  unfold alternatingColours
  rw [List.range_succ, List.map_append]
  rfl

theorem getNextLine_inside (lines : List (List Char)) (i : Nat) (h : i < lines.length)
    (hne : ∀ l ∈ lines, l ≠ []) :
    (getNextLine lines i).2 = i + 1 ∧ (getNextLine lines i).1 ≠ [] := by
  have hemp : lines.isEmpty = false := by
    cases lines with
    | nil => simp at h
    | cons l ls => rfl
  have hg : getNextLine lines i = (lines.get ⟨i, h⟩, i + 1) := by
    unfold getNextLine
    rw [if_neg (by simp [hemp]), if_neg (by omega)]
    simp [List.getD_eq_getElem?_getD, List.getElem?_eq_getElem h]
  rw [hg]
  exact ⟨rfl, hne _ (List.get_mem _ _ _)⟩

theorem spawnFire_step (lines1 lines2 : List (List Char)) (k : Nat) (s : GameState)
    (hinv : SpawnedSoFar lines1 lines2 k s)
    (hne1 : ∀ l ∈ lines1, l ≠ []) (hne2 : ∀ l ∈ lines2, l ≠ [])
    (hl1 : k % 2 = 0 → k / 2 < lines1.length) (hl2 : k % 2 = 1 → k / 2 < lines2.length) :
    SpawnedSoFar lines1 lines2 (k + 1) (spawnFire s) := by
  obtain ⟨hg, hf1, hf2, hu, hi1, hi2, hc⟩ := hinv
  rcases Nat.mod_two_eq_zero_or_one k with hk | hk
  · have hu' : s.useFirstFile = true := by rw [hu]; simp [hk]
    have hlt : s.file1Index < s.file1Lines.length := by
      rw [hi1, hf1]; have := hl1 hk; omega
    obtain ⟨g2, g1⟩ := getNextLine_inside s.file1Lines s.file1Index hlt (by rw [hf1]; exact hne1)
    have g1' : (getNextLine s.file1Lines s.file1Index).1.isEmpty = false := by
      cases hx : (getNextLine s.file1Lines s.file1Index).1 with
      | nil => exact absurd hx g1
      | cons a as => rfl
    unfold spawnFire
    simp only [hu', if_true, g1', Bool.not_false, g2]
    refine ⟨hg, hf1, hf2, ?_, ?_, ?_, ?_⟩
    · simp; omega
    · simp only [hi1]; omega
    · simp only [hi2]; omega
    · simp only [List.map_append, hc, alternatingColours_succ, hk, if_true]
      rfl
  · have hu' : s.useFirstFile = false := by rw [hu]; simp [hk]
    have hlt : s.file2Index < s.file2Lines.length := by
      rw [hi2, hf2]; exact hl2 hk
    obtain ⟨g2, g1⟩ := getNextLine_inside s.file2Lines s.file2Index hlt (by rw [hf2]; exact hne2)
    have g1' : (getNextLine s.file2Lines s.file2Index).1.isEmpty = false := by
      cases hx : (getNextLine s.file2Lines s.file2Index).1 with
      | nil => exact absurd hx g1
      | cons a as => rfl
    unfold spawnFire
    simp only [hu', Bool.false_eq_true, if_false, g1', Bool.not_false, if_true, g2]
    refine ⟨hg, hf1, hf2, ?_, ?_, ?_, ?_⟩
    · simp; omega
    · simp only [hi1]; omega
    · simp only [hi2]; omega
    · simp only [List.map_append, hc, alternatingColours_succ, hk]
      rfl

theorem spawnedSoFar_timer (lines1 lines2 : List (List Char)) (k : Nat) (s : GameState)
    (t : ℚ) (hinv : SpawnedSoFar lines1 lines2 k s) :
    SpawnedSoFar lines1 lines2 k { s with textSpawnTimer := t } := hinv

theorem spawnRun_cons (d : ℚ) (dts : List ℚ) (s : GameState) :
    spawnRun (d :: dts) s = spawnRun dts (spawnText d s) := rfl

theorem spawnRun_spawned (lines1 lines2 : List (List Char))
    (hne1 : ∀ l ∈ lines1, l ≠ []) (hne2 : ∀ l ∈ lines2, l ≠ [])
    (dts : List ℚ) (k : Nat) (s : GameState)
    (hinv : SpawnedSoFar lines1 lines2 k s)
    (hl1 : (k + firings dts s + 1) / 2 ≤ lines1.length)
    (hl2 : (k + firings dts s + 1) / 2 ≤ lines2.length) :
    SpawnedSoFar lines1 lines2 (k + firings dts s) (spawnRun dts s) := by
  induction dts generalizing k s with
  | nil => exact hinv
  | cons d rest ih =>
    rw [spawnRun_cons]
    rw [firings] at hl1 hl2 ⊢
    have hg : s.isGameOver = false := hinv.1
    by_cases hf : s.textSpawnTimer + d ≥ textSpawnInterval
    · have hfire : spawnFires d s = true := by simp [spawnFires, hg, hf]
      have hst : spawnText d s = spawnFire { s with textSpawnTimer := s.textSpawnTimer + d } := by
        simp [spawnText, hg, hf]
      rw [hfire] at hl1 hl2 ⊢
      simp only [if_true] at hl1 hl2 ⊢
      have hstep : SpawnedSoFar lines1 lines2 (k + 1) (spawnText d s) := by
        rw [hst]
        exact spawnFire_step lines1 lines2 k _ (spawnedSoFar_timer _ _ _ _ _ hinv) hne1 hne2
          (by intro _; omega) (by intro _; omega)
      have := ih (k + 1) (spawnText d s) hstep (by rw [← add_assoc] at hl1; exact hl1)
        (by rw [← add_assoc] at hl2; exact hl2)
      rw [add_assoc] at this
      exact this
    · have hfire : spawnFires d s = false := by simp [spawnFires, hg, not_le.mp hf]
      have hst : spawnText d s = { s with textSpawnTimer := s.textSpawnTimer + d } := by
        simp [spawnText, hg, hf]
      rw [hfire] at hl1 hl2 ⊢
      simp only [Bool.false_eq_true, if_false, zero_add] at hl1 hl2 ⊢
      have hstep : SpawnedSoFar lines1 lines2 k (spawnText d s) := by
        rw [hst]
        exact spawnedSoFar_timer _ _ _ _ _ hinv
      exact ih k (spawnText d s) hstep hl1 hl2

theorem countP_alternating_hazard (n : Nat) :
    (alternatingColours n).countP (fun c => decide (c = hazardColour)) = (n + 1) / 2 := by
  induction n with
  | zero => rfl
  | succ k ih =>
    rw [alternatingColours_succ, List.countP_append, ih]
    rcases Nat.mod_two_eq_zero_or_one k with hk | hk
    · simp only [hk, if_true, List.countP_singleton, decide_True]
      omega
    · have hne : benignColour ≠ hazardColour := by simp [hazardColour, benignColour]
      simp only [hk, one_ne_zero, if_false, List.countP_singleton, hne, decide_False,
        Bool.false_eq_true]
      omega

theorem countP_alternating_benign (n : Nat) :
    (alternatingColours n).countP (fun c => decide (c = benignColour)) = n / 2 := by
  induction n with
  | zero => rfl
  | succ k ih =>
    rw [alternatingColours_succ, List.countP_append, ih]
    rcases Nat.mod_two_eq_zero_or_one k with hk | hk
    · have hne : hazardColour ≠ benignColour := by simp [hazardColour, benignColour]
      simp only [hk, if_true, List.countP_singleton, hne, decide_False, Bool.false_eq_true,
        if_false]
      omega
    · simp only [hk, one_ne_zero, if_false, List.countP_singleton, decide_True, if_true]
      omega

theorem initialState_spawned (redTextFile greenTextFile : List Char) :
    SpawnedSoFar (readAllLines redTextFile) (readAllLines greenTextFile) 0
      (initialState redTextFile greenTextFile) :=
  ⟨rfl, rfl, rfl, rfl, rfl, rfl, rfl⟩

/-- C7. Source alternation: from the initial state (first source active, both
cursors 0, not game over), over any sequence of frame deltas during which the
spawn timer fires `N` times, if both loaded sequences have at least `⌈N/2⌉`
lines (which makes both of them non-empty as soon as `N ≥ 1`), the
spawner has emitted exactly `N` entities, their colours alternate strictly
hazard, benign, hazard, ... starting with hazard, `⌈N/2⌉` of them are
hazard-coloured and `⌊N/2⌋` benign. -/
theorem source_alternation (redTextFile greenTextFile : List Char) (dts : List ℚ) (N : Nat)
    (hN : firings dts (initialState redTextFile greenTextFile) = N)
    (hlen1 : (N + 1) / 2 ≤ (readAllLines redTextFile).length)
    (hlen2 : (N + 1) / 2 ≤ (readAllLines greenTextFile).length) :
    (spawnRun dts (initialState redTextFile greenTextFile)).fallingTexts.length = N
    ∧ (spawnRun dts (initialState redTextFile greenTextFile)).fallingTexts.map FallingText.colour
        = alternatingColours N
    ∧ (∀ k (hk : k < (spawnRun dts (initialState redTextFile greenTextFile)).fallingTexts.length),
        ((spawnRun dts (initialState redTextFile greenTextFile)).fallingTexts.get ⟨k, hk⟩).colour
          = if k % 2 = 0 then hazardColour else benignColour)
    ∧ (spawnRun dts (initialState redTextFile greenTextFile)).fallingTexts.countP
        (fun t => decide (t.colour = hazardColour)) = (N + 1) / 2
    ∧ (spawnRun dts (initialState redTextFile greenTextFile)).fallingTexts.countP
        (fun t => decide (t.colour = benignColour)) = N / 2 := by
  have hinv := spawnRun_spawned (readAllLines redTextFile) (readAllLines greenTextFile)
    (fun l hl => ((mem_readAllLines _ l).mp hl).2.1)
    (fun l hl => ((mem_readAllLines _ l).mp hl).2.1)
    dts 0 (initialState redTextFile greenTextFile) (initialState_spawned _ _)
    (by rw [zero_add, hN]; exact hlen1) (by rw [zero_add, hN]; exact hlen2)
  rw [zero_add, hN] at hinv
  have hc := hinv.2.2.2.2.2.2
  have hlen : (spawnRun dts (initialState redTextFile greenTextFile)).fallingTexts.length = N := by
    have := congrArg List.length hc
    simpa [alternatingColours] using this
  refine ⟨hlen, hc, ?_, ?_, ?_⟩
  · intro k hk
    have h1 : ((spawnRun dts (initialState redTextFile greenTextFile)).fallingTexts.map
        FallingText.colour)[k]? = (alternatingColours N)[k]? := by rw [hc]
    rw [List.getElem?_map, List.getElem?_eq_getElem hk] at h1
    have hkN : k < N := hlen ▸ hk
    simp only [alternatingColours, List.getElem?_map, List.getElem?_range hkN, Option.map_some'] at h1
    exact Option.some.inj h1
  · rw [← countP_alternating_hazard N, ← hc, List.countP_map]
    rfl
  · rw [← countP_alternating_benign N, ← hc, List.countP_map]
    rfl

theorem spawnFire_timer (s : GameState) : (spawnFire s).textSpawnTimer = 0 := by
  unfold spawnFire
  dsimp only
  split_ifs <;> rfl

theorem spawnText_timer (deltaTime : ℚ) (s : GameState) (hg : s.isGameOver = false) :
    (spawnText deltaTime s).textSpawnTimer
      = if s.textSpawnTimer + deltaTime ≥ textSpawnInterval then 0
        else s.textSpawnTimer + deltaTime := by
  unfold spawnText
  simp only [hg, Bool.not_false, if_true]
  split_ifs
  · exact spawnFire_timer _
  · rfl

theorem firings_example (redTextFile greenTextFile : List Char) :
    firings [1 / 2, 1 / 4, 1 / 4, 1 / 2] (initialState redTextFile greenTextFile) = 3 := by
  have g0 : (initialState redTextFile greenTextFile).isGameOver = false := rfl
  have t0 : (initialState redTextFile greenTextFile).textSpawnTimer = 0 := rfl
  have g1 := (spawnText_fields (1 / 2) (initialState redTextFile greenTextFile)).2.1.trans g0
  have t1 := spawnText_timer (1 / 2) _ g0
  rw [t0] at t1
  norm_num [textSpawnInterval] at t1
  have g2 := (spawnText_fields (1 / 4) _).2.1.trans g1
  have t2 := spawnText_timer (1 / 4) _ g1
  rw [t1] at t2
  norm_num [textSpawnInterval] at t2
  have g3 := (spawnText_fields (1 / 4) _).2.1.trans g2
  have t3 := spawnText_timer (1 / 4) _ g2
  rw [t2] at t3
  norm_num [textSpawnInterval] at t3
  simp only [firings, spawnFires, g0, g1, g2, g3, t0, t1, t2, t3, textSpawnInterval]
  norm_num

/-- C7 at concrete inputs: two lines in each file and four frames of 0.5 s,
0.25 s, 0.25 s, 0.5 s, in which the spawn timer fires three times, give the
colours hazard, benign, hazard. -/
theorem source_alternation_witness :
    firings [1 / 2, 1 / 4, 1 / 4, 1 / 2] (initialState "r1\nr2".toList "g1\ng2".toList) = 3
    ∧ (spawnRun [1 / 2, 1 / 4, 1 / 4, 1 / 2]
        (initialState "r1\nr2".toList "g1\ng2".toList)).fallingTexts.map FallingText.colour
      = [hazardColour, benignColour, hazardColour] :=
  ⟨firings_example _ _,
   (source_alternation "r1\nr2".toList "g1\ng2".toList [1 / 2, 1 / 4, 1 / 4, 1 / 2] 3
      (firings_example _ _) (by decide) (by decide)).2.1⟩

/-! ## The blocks inside a frame -/

theorem applyDamage_congr (flag : Bool) (deltaTime : ℚ) (s s' : GameState)
    (h1 : s.playerHealth = s'.playerHealth) (h2 : s.isGameOver = s'.isGameOver)
    (h3 : s.damageTimer = s'.damageTimer) :
    (applyDamage flag deltaTime s).playerHealth = (applyDamage flag deltaTime s').playerHealth
    ∧ (applyDamage flag deltaTime s).isGameOver = (applyDamage flag deltaTime s').isGameOver
    ∧ (applyDamage flag deltaTime s).damageTimer = (applyDamage flag deltaTime s').damageTimer := by
  unfold applyDamage
  dsimp only
  rw [h1, h2, h3]
  split_ifs <;> simp [h2]

/-- The health, the game-over flag and the damage timer at the end of a frame
are those the damage block computes from their values at the start of the
frame, the frame delta and the hazard-contact flag of the collision scan. -/
theorem frame_damage_block (Characters : Glyphs) (inp : FrameInput) (s : GameState) :
    (frame Characters inp s).playerHealth
        = (applyDamage
            (collisionScan Characters (beforeDamage inp s).playerX (beforeDamage inp s).playerY
              (beforeDamage inp s).fallingTexts).2
            (inp.currentFrame - s.lastFrame) s).playerHealth
    ∧ (frame Characters inp s).isGameOver
        = (applyDamage
            (collisionScan Characters (beforeDamage inp s).playerX (beforeDamage inp s).playerY
              (beforeDamage inp s).fallingTexts).2
            (inp.currentFrame - s.lastFrame) s).isGameOver
    ∧ (frame Characters inp s).damageTimer
        = (applyDamage
            (collisionScan Characters (beforeDamage inp s).playerX (beforeDamage inp s).playerY
              (beforeDamage inp s).fallingTexts).2
            (inp.currentFrame - s.lastFrame) s).damageTimer := by
  obtain ⟨b1, b2, b3⟩ := beforeDamage_fields inp s
  obtain ⟨c1, c2, c3⟩ := applyDamage_congr
    (collisionScan Characters (beforeDamage inp s).playerX (beforeDamage inp s).playerY
      (beforeDamage inp s).fallingTexts).2
    (inp.currentFrame - s.lastFrame) (beforeDamage inp s) s b1 b2 b3
  rw [frame_eq]
  exact ⟨c1, c2, c3⟩

/-- The spawner block fires exactly when `spawnFires` says so. -/
theorem spawnText_eq (deltaTime : ℚ) (s : GameState) :
    spawnText deltaTime s =
      if spawnFires deltaTime s then
        spawnFire { s with textSpawnTimer := s.textSpawnTimer + deltaTime }
      else if s.isGameOver then s
      else { s with textSpawnTimer := s.textSpawnTimer + deltaTime } := by
  unfold spawnText spawnFires
  cases hg : s.isGameOver with
  | true => simp
  | false =>
    by_cases hf : s.textSpawnTimer + deltaTime ≥ textSpawnInterval
    · simp [hf]
    · simp [hf]

/-! ## Player controller -/

theorem processInput_range (keyLeft keyRight : Bool) (playerX deltaTime : ℚ) :
    -(7 / 10) ≤ processInput keyLeft keyRight playerX deltaTime
    ∧ processInput keyLeft keyRight playerX deltaTime ≤ 7 / 10 := by
  unfold processInput
  dsimp only
  split_ifs <;> constructor <;> linarith

theorem beforeDamage_playerX (inp : FrameInput) (s : GameState) :
    (beforeDamage inp s).playerX
      = processInput inp.keyLeft inp.keyRight s.playerX (inp.currentFrame - s.lastFrame) := by
  unfold beforeDamage
  dsimp only
  rw [(spawnText_fields _ _).2.2.2.1, (reloadFiles_fields _ _ _).2.2.2.1]

theorem frame_playerX (Characters : Glyphs) (inp : FrameInput) (s : GameState) :
    (frame Characters inp s).playerX
      = processInput inp.keyLeft inp.keyRight s.playerX (inp.currentFrame - s.lastFrame) := by
  rw [(frame_view Characters inp s).2.1, beforeDamage_playerX]

theorem run_playerX_range (Characters : Glyphs) (inputs : List FrameInput) (s : GameState)
    (h : -(7 / 10) ≤ s.playerX ∧ s.playerX ≤ 7 / 10) :
    -(7 / 10) ≤ (run Characters inputs s).playerX
    ∧ (run Characters inputs s).playerX ≤ 7 / 10 := by
  induction inputs generalizing s with
  | nil => exact h
  | cons inp rest ih =>
    rw [run]
    split_ifs
    · exact h
    · refine ih _ ?_
      rw [frame_playerX]
      exact processInput_range _ _ _ _

/-- C12. Player clamp: for every prior horizontal position, every combination
of the left and right keys and every frame delta (non-negative or not), the
position after `processInput` lies in `[-0.7, 0.7]`; the position at the end
of a frame is that position, so it lies in `[-0.7, 0.7]` after every frame,
and along every run from the initial state. -/
theorem player_clamp (Characters : Glyphs) :
    (∀ (keyLeft keyRight : Bool) (playerX deltaTime : ℚ),
        -(7 / 10) ≤ processInput keyLeft keyRight playerX deltaTime
        ∧ processInput keyLeft keyRight playerX deltaTime ≤ 7 / 10)
    ∧ (∀ (inp : FrameInput) (s : GameState),
        (frame Characters inp s).playerX
          = processInput inp.keyLeft inp.keyRight s.playerX (inp.currentFrame - s.lastFrame)
        ∧ -(7 / 10) ≤ (frame Characters inp s).playerX
        ∧ (frame Characters inp s).playerX ≤ 7 / 10)
    ∧ (∀ (redTextFile greenTextFile : List Char) (inputs : List FrameInput),
        -(7 / 10) ≤ (run Characters inputs (initialState redTextFile greenTextFile)).playerX
        ∧ (run Characters inputs (initialState redTextFile greenTextFile)).playerX ≤ 7 / 10) := by
  refine ⟨processInput_range, ?_, ?_⟩
  · intro inp s
    refine ⟨frame_playerX Characters inp s, ?_⟩
    rw [frame_playerX]
    exact processInput_range _ _ _ _
  · intro redTextFile greenTextFile inputs
    exact run_playerX_range Characters inputs _ (by norm_num [initialState])

/-- C12 at concrete inputs: from the right edge 0.7 with the right key held for
a whole second the position stays 0.7; from -0.6 with the left key held for
half a second it stops at -0.7. -/
theorem player_clamp_witness :
    (-(7 / 10) ≤ processInput false true (7 / 10) 1
      ∧ processInput false true (7 / 10) 1 ≤ 7 / 10)
    ∧ processInput false true (7 / 10) 1 = 7 / 10
    ∧ processInput true false (-(6 / 10)) (1 / 2) = -(7 / 10) :=
  ⟨(player_clamp wideGlyphs).1 false true (7 / 10) 1,
   by norm_num [processInput], by norm_num [processInput]⟩

/-! ## Game over and the spawner -/

theorem spawnText_gameOver (deltaTime : ℚ) (s : GameState) (hover : s.isGameOver = true) :
    spawnText deltaTime s = s := by
  unfold spawnText
  simp [hover]

theorem applyDamage_spawner_fields (flag : Bool) (deltaTime : ℚ) (s : GameState) :
    (applyDamage flag deltaTime s).useFirstFile = s.useFirstFile
    ∧ (applyDamage flag deltaTime s).file1Index = s.file1Index
    ∧ (applyDamage flag deltaTime s).file2Index = s.file2Index
    ∧ (applyDamage flag deltaTime s).textSpawnTimer = s.textSpawnTimer
    ∧ (applyDamage flag deltaTime s).lastFrame = s.lastFrame := by
  unfold applyDamage
  dsimp only
  split_ifs <;> simp

theorem reloadFiles_spawner_fields (inp : FrameInput) (deltaTime : ℚ) (s : GameState) :
    (reloadFiles inp deltaTime s).useFirstFile = s.useFirstFile
    ∧ (reloadFiles inp deltaTime s).textSpawnTimer = s.textSpawnTimer
    ∧ (reloadFiles inp deltaTime s).lastFrame = s.lastFrame := by
  unfold reloadFiles
  dsimp only
  split_ifs <;> simp

/-- With the game over, the part of a frame before the collision scan comes
down to the input, the reload block and advance-and-prune. -/
theorem beforeDamage_gameOver (inp : FrameInput) (s : GameState) (hover : s.isGameOver = true) :
    beforeDamage inp s =
      { reloadFiles inp (inp.currentFrame - s.lastFrame)
          { s with
            lastFrame := inp.currentFrame
            shouldClose := s.shouldClose || inp.keyEscape
            playerX := processInput inp.keyLeft inp.keyRight s.playerX
              (inp.currentFrame - s.lastFrame) } with
        fallingTexts := updateFallingTexts (inp.currentFrame - s.lastFrame) s.fallingTexts } := by
  unfold beforeDamage
  dsimp only
  rw [spawnText_gameOver _ _ (by rw [(reloadFiles_fields _ _ _).2.1]; exact hover)]
  rw [(reloadFiles_fields _ _ _).2.2.2.2.2]

theorem reloadFiles_index_congr (inp : FrameInput) (deltaTime : ℚ) (s : GameState)
    (lastFrame playerX : ℚ) (shouldClose : Bool) :
    (reloadFiles inp deltaTime
        { s with lastFrame := lastFrame, shouldClose := shouldClose, playerX := playerX }).file1Index
      = (reloadFiles inp deltaTime s).file1Index
    ∧ (reloadFiles inp deltaTime
        { s with lastFrame := lastFrame, shouldClose := shouldClose, playerX := playerX }).file2Index
      = (reloadFiles inp deltaTime s).file2Index := by
  unfold reloadFiles
  dsimp only
  split_ifs <;> exact ⟨rfl, rfl⟩

theorem reloadFiles_index_idle (inp : FrameInput) (deltaTime : ℚ) (s : GameState)
    (h : s.fileReloadTimer + deltaTime < fileReloadInterval) :
    (reloadFiles inp deltaTime s).file1Index = s.file1Index
    ∧ (reloadFiles inp deltaTime s).file2Index = s.file2Index := by
  unfold reloadFiles
  dsimp only
  rw [if_neg (not_le.mpr h)]
  exact ⟨rfl, rfl⟩

theorem removeIf_length_le (pred : FallingText → Bool) (texts : List FallingText) :
    (removeIf pred texts).length ≤ texts.length := by
  rw [removeIf_eq_filter]
  exact List.length_filter_le _ _

theorem mem_updateFallingTexts (deltaTime : ℚ) (texts : List FallingText) (u : FallingText)
    (hu : u ∈ updateFallingTexts deltaTime texts) :
    ∃ t ∈ texts, u = { t with y := fsub (f32 t.y) (fmul (f32 t.speed) (f32 deltaTime)) } := by
  unfold updateFallingTexts at hu
  rw [removeIf_eq_filter] at hu
  obtain ⟨t, ht, rfl⟩ := List.mem_map.mp (List.mem_filter.mp hu).1
  exact ⟨t, ht, rfl⟩

/-- In a frame that starts with the game over, the final list of entities is
the starting list advanced and pruned. -/
theorem frame_fallingTexts_gameOver (Characters : Glyphs) (inp : FrameInput) (s : GameState)
    (hover : s.isGameOver = true) :
    (frame Characters inp s).fallingTexts
      = updateFallingTexts (inp.currentFrame - s.lastFrame) s.fallingTexts := by
  rw [(frame_view Characters inp s).1, beforeDamage_gameOver inp s hover]

/-- C11, as stated, fails in its last clause on `float` values.  Game over at
clock reading 100 with an entity at `y = 600`, next clock reading
`100 + 2185/2^17` (a `float` value): the surviving entity has `y = 1227093/2^11`, which is not
`y - speed*dt = 39266975/2^16`.  Game over with an entity at
`y = 13107203/2^19` and a frame delta of `4194305/2^23`: the exact
`y - speed*dt` is below 0, yet the entity survives, with `y = 0`. -/
theorem gameOver_stops_spawner_counterexample :
    (gameOverAt 100 600).isGameOver = true
    ∧ f32 (13109385 / 131072) = 13109385 / 131072
    ∧ (frame wideGlyphs (idleInput (13109385 / 131072)) (gameOverAt 100 600)).fallingTexts
        = [hazardAt (1227093 / 2048)]
    ∧ (hazardAt 600).y - (hazardAt 600).speed
          * ((idleInput (13109385 / 131072)).currentFrame - (gameOverAt 100 600).lastFrame)
        = 39266975 / 65536
    ∧ (1227093 / 2048 : ℚ) ≠ 39266975 / 65536
    ∧ (frame wideGlyphs (idleInput (4194305 / 8388608))
          (gameOverAt 0 (13107203 / 524288))).fallingTexts = [hazardAt 0]
    ∧ (hazardAt (13107203 / 524288)).y - (hazardAt (13107203 / 524288)).speed
          * ((idleInput (4194305 / 8388608)).currentFrame
              - (gameOverAt 0 (13107203 / 524288)).lastFrame) < 0 := by
  have d1 : (13109385 / 131072 : ℚ) - 100 = 2185 / 131072 := by norm_num
  have d2 : (4194305 / 8388608 : ℚ) - 0 = 4194305 / 8388608 := by norm_num
  have e1 : advanceText (2185 / 131072) (hazardAt 600) = hazardAt (1227093 / 2048) :=
    advanceText_eval _ _ _ advance_late
  have e2 : advanceText (4194305 / 8388608) (hazardAt (13107203 / 524288)) = hazardAt 0 :=
    advanceText_eval _ _ _ advance_threshold
  refine ⟨rfl, f32_late_clock, ?_, ?_, by norm_num, ?_, ?_⟩
  · rw [frame_fallingTexts_gameOver _ _ _ rfl]
    simp only [idleInput, gameOverAt, initialState]
    rw [d1, updateFallingTexts_cons, updateFallingTexts_nil, e1, if_neg (by norm_num [hazardAt])]
  · simp only [idleInput, gameOverAt, initialState, hazardAt]
    norm_num
  · rw [frame_fallingTexts_gameOver _ _ _ rfl]
    simp only [idleInput, gameOverAt, initialState]
    rw [d2, updateFallingTexts_cons, updateFallingTexts_nil, e2, if_neg (by norm_num [hazardAt])]
  · simp only [idleInput, gameOverAt, initialState, hazardAt]
    norm_num

/-- C11, amended. Game over stops the spawner: in a frame that starts with the
game-over flag set the spawner block changes nothing, so the live-entity list
at the end of the frame is the list at its start advanced and pruned: it is
never longer, every entity in it is an entity of the old list with its `y`
replaced by the `float` result of `y - speed * dt` (product and difference
each rounded to nearest) and everything else (its text included) unchanged;
the active-source flag and the spawn timer are unchanged, and the two cursors
are those the reload block leaves (the cursors of the start of the frame when
the reload timer does not fire). -/
theorem gameOver_stops_spawner (Characters : Glyphs) (inp : FrameInput) (s : GameState)
    (hover : s.isGameOver = true) :
    (∀ (deltaTime : ℚ) (s' : GameState), s'.isGameOver = true → spawnText deltaTime s' = s')
    ∧ (frame Characters inp s).fallingTexts
        = updateFallingTexts (inp.currentFrame - s.lastFrame) s.fallingTexts
    ∧ (frame Characters inp s).fallingTexts.length ≤ s.fallingTexts.length
    ∧ (∀ u ∈ (frame Characters inp s).fallingTexts,
        ∃ t ∈ s.fallingTexts,
          u = { t with
                y := fsub (f32 t.y) (fmul (f32 t.speed) (f32 (inp.currentFrame - s.lastFrame))) })
    ∧ (frame Characters inp s).useFirstFile = s.useFirstFile
    ∧ (frame Characters inp s).textSpawnTimer = s.textSpawnTimer
    ∧ (frame Characters inp s).file1Index
        = (reloadFiles inp (inp.currentFrame - s.lastFrame) s).file1Index
    ∧ (frame Characters inp s).file2Index
        = (reloadFiles inp (inp.currentFrame - s.lastFrame) s).file2Index
    ∧ (s.fileReloadTimer + (inp.currentFrame - s.lastFrame) < fileReloadInterval →
        (frame Characters inp s).file1Index = s.file1Index
        ∧ (frame Characters inp s).file2Index = s.file2Index) := by
  have hb := beforeDamage_gameOver inp s hover
  have hf := frame_fallingTexts_gameOver Characters inp s hover
  obtain ⟨a1, a2, a3, a4, _⟩ := applyDamage_spawner_fields
    (collisionScan Characters (beforeDamage inp s).playerX (beforeDamage inp s).playerY
      (beforeDamage inp s).fallingTexts).2
    (inp.currentFrame - s.lastFrame) (beforeDamage inp s)
  have hu : (frame Characters inp s).useFirstFile = s.useFirstFile := by
    rw [frame_eq]
    refine a1.trans ?_
    rw [hb]
    exact (reloadFiles_spawner_fields _ _ _).1
  have ht : (frame Characters inp s).textSpawnTimer = s.textSpawnTimer := by
    rw [frame_eq]
    refine a4.trans ?_
    rw [hb]
    exact (reloadFiles_spawner_fields _ _ _).2.1
  have h1 : (frame Characters inp s).file1Index
      = (reloadFiles inp (inp.currentFrame - s.lastFrame) s).file1Index := by
    rw [frame_eq]
    refine a2.trans ?_
    rw [hb]
    exact (reloadFiles_index_congr inp _ s _ _ _).1
  have h2 : (frame Characters inp s).file2Index
      = (reloadFiles inp (inp.currentFrame - s.lastFrame) s).file2Index := by
    rw [frame_eq]
    refine a3.trans ?_
    rw [hb]
    exact (reloadFiles_index_congr inp _ s _ _ _).2
  refine ⟨spawnText_gameOver, hf, ?_, ?_, hu, ht, h1, h2, ?_⟩
  · rw [hf]
    unfold updateFallingTexts
    refine (removeIf_length_le _ _).trans ?_
    rw [List.length_map]
  · intro u hu'
    rw [hf] at hu'
    exact mem_updateFallingTexts _ _ u hu'
  · intro hidle
    rw [h1, h2]
    exact reloadFiles_index_idle inp _ s hidle

/-- C11, amended, at a concrete frame: game over, the spawn timer due and a
line available in the first file; after a half-second frame the list holds
only the old hazard entity, 25 pixels lower (the benign one fell below 0), and
the active-source flag and both cursors are as before. -/
theorem gameOver_stops_spawner_witness :
    gameOverState.file1Lines = ["r1".toList]
    ∧ gameOverState.fallingTexts = [hazardAt 200, benignAt 10]
    ∧ (frame wideGlyphs (idleInput (1 / 2)) gameOverState).fallingTexts = [hazardAt 175]
    ∧ (frame wideGlyphs (idleInput (1 / 2)) gameOverState).useFirstFile = true
    ∧ (frame wideGlyphs (idleInput (1 / 2)) gameOverState).file1Index = 0
    ∧ (frame wideGlyphs (idleInput (1 / 2)) gameOverState).file2Index = 0 := by
  obtain ⟨_, hf, _, _, hu, _, _, _, hidx⟩ :=
    gameOver_stops_spawner wideGlyphs (idleInput (1 / 2)) gameOverState rfl
  have hi := hidx (by norm_num [idleInput, gameOverState, initialState, fileReloadInterval])
  have hd : (1 / 2 : ℚ) - 0 = 1 / 2 := by norm_num
  refine ⟨by decide, rfl, ?_, hu, hi.1, hi.2⟩
  rw [hf]
  simp only [idleInput, gameOverState, initialState]
  rw [hd]
  exact updateFallingTexts_gameOver

/-! ## Damage timer -/

/-- C13. No partial-interval carryover: in a frame that starts with the game
already over, or at whose collision scan no entity of the hazard colour
overlaps the player, the damage timer is exactly 0 at the end of the frame,
whatever it was at the start. -/
theorem no_partial_carryover (Characters : Glyphs) (inp : FrameInput) (s : GameState)
    (h : s.isGameOver = true ∨
      ¬ ∃ t ∈ (frame Characters inp s).fallingTexts,
          t.colour = hazardColour ∧
          checkCollision Characters (frame Characters inp s).playerX
            (frame Characters inp s).playerY (1 / 20) t.x t.y t.text (1 / 2) = true) :
    (frame Characters inp s).damageTimer = 0 := by
  rw [(frame_damage_block Characters inp s).2.2]
  rcases h with hover | hno
  · exact (applyDamage_gameOver _ _ s hover).2.1
  · obtain ⟨hf, hx, hy⟩ := frame_view Characters inp s
    rw [hf, hx, hy, ← collisionScan_snd] at hno
    rw [Bool.not_eq_true] at hno
    rw [hno]
    exact (applyDamage_no_contact _ s).2.1

theorem beforeDamage_partialTimer :
    beforeDamage (idleInput (1 / 2)) partialTimerState
      = { partialTimerState with
          lastFrame := 1 / 2
          fileReloadTimer := 1 / 2
          useFirstFile := false
          fallingTexts := [benignAt 175, benignAt 165] } := by
  have hr : readAllLines [] = [] := by decide
  simp [beforeDamage, partialTimerState, idleInput, initialState, processInput, reloadFiles,
    fileReloadInterval, spawnText, textSpawnInterval, spawnFire, getNextLine, hr]
  norm_num
  exact updateFallingTexts_benignAt

/-- C13 at a concrete frame: a quarter of a second is on the damage timer and
only benign entities overlap the player; after the frame the timer is 0. -/
theorem no_partial_carryover_witness :
    partialTimerState.damageTimer = 1 / 4
    ∧ (frame wideGlyphs (idleInput (1 / 2)) partialTimerState).fallingTexts
        = [benignAt 175, benignAt 165]
    ∧ (frame wideGlyphs (idleInput (1 / 2)) partialTimerState).damageTimer = 0 := by
  have hf : (frame wideGlyphs (idleInput (1 / 2)) partialTimerState).fallingTexts
      = [benignAt 175, benignAt 165] := by
    rw [(frame_view _ _ _).1, beforeDamage_partialTimer]
  refine ⟨rfl, hf, no_partial_carryover wideGlyphs (idleInput (1 / 2)) partialTimerState
    (Or.inr ?_)⟩
  rintro ⟨t, ht, hcol, _⟩
  rw [hf] at ht
  simp only [List.mem_cons, List.mem_singleton, List.not_mem_nil, or_false] at ht
  rcases ht with rfl | rfl <;> simp [FallingText.colour, benignAt, hazardColour] at hcol

/-! ## Damage rate -/

/-- One damage block takes at most one damage amount off the health, whatever
the frame delta. -/
theorem applyDamage_drop_le (flag : Bool) (deltaTime : ℚ) (s : GameState) :
    s.playerHealth - (applyDamage flag deltaTime s).playerHealth ≤ damageAmount := by
  have ha : damageAmount = 1 := rfl
  rcases applyDamage_cases flag deltaTime s with h | ⟨_, _, _, h | h⟩
  · rw [h.1, ha]; norm_num
  · rw [h.2.1]; linarith
  · rw [h.2.1]; linarith [h.1]

/-- One damage block either fires (`k = 1`), which takes a whole damage
interval of accumulated time, or does not (`k = 0`). -/
theorem applyDamage_tick (flag : Bool) (deltaTime : ℚ) (s : GameState)
    (hd : 0 ≤ deltaTime) (ht : 0 ≤ s.damageTimer) :
    ∃ k : ℕ,
      s.playerHealth - (applyDamage flag deltaTime s).playerHealth ≤ (k : ℚ) * damageAmount
      ∧ (k : ℚ) * damageInterval + (applyDamage flag deltaTime s).damageTimer
          ≤ s.damageTimer + deltaTime
      ∧ 0 ≤ (applyDamage flag deltaTime s).damageTimer := by
  have hi : damageInterval = 1 / 2 := rfl
  have ha : damageAmount = 1 := rfl
  have hdrop := applyDamage_drop_le flag deltaTime s
  cases flag with
  | false =>
    obtain ⟨h1, h2, _⟩ := applyDamage_no_contact deltaTime s
    refine ⟨0, ?_, ?_, ?_⟩
    · rw [h1]; norm_num
    · rw [h2]; norm_num; linarith
    · rw [h2]
  | true =>
    cases hg : s.isGameOver with
    | true =>
      obtain ⟨h1, h2, _⟩ := applyDamage_gameOver true deltaTime s hg
      refine ⟨0, ?_, ?_, ?_⟩
      · rw [h1]; norm_num
      · rw [h2]; norm_num; linarith
      · rw [h2]
    | false =>
      by_cases hf : damageInterval ≤ s.damageTimer + deltaTime
      · obtain ⟨_, h2, _⟩ := applyDamage_hit deltaTime s hg hf
        refine ⟨1, ?_, ?_, ?_⟩
        · rw [Nat.cast_one, one_mul]; exact hdrop
        · rw [h2, Nat.cast_one, one_mul, add_zero]; exact hf
        · rw [h2]
      · obtain ⟨h1, h2, _⟩ := applyDamage_wait deltaTime s hg (not_le.mp hf)
        refine ⟨0, ?_, ?_, ?_⟩
        · rw [h1]; norm_num
        · rw [h2]; norm_num
        · rw [h2]; linarith

theorem spawnFire_lastFrame (s : GameState) : (spawnFire s).lastFrame = s.lastFrame := by
  unfold spawnFire
  dsimp only
  split_ifs <;> rfl

theorem spawnText_lastFrame (deltaTime : ℚ) (s : GameState) :
    (spawnText deltaTime s).lastFrame = s.lastFrame := by
  unfold spawnText
  dsimp only
  split_ifs
  · exact spawnFire_lastFrame _
  · rfl
  · rfl

theorem frame_lastFrame (Characters : Glyphs) (inp : FrameInput) (s : GameState) :
    (frame Characters inp s).lastFrame = inp.currentFrame := by
  rw [frame_eq]
  refine (applyDamage_spawner_fields _ _ _).2.2.2.2.trans ?_
  unfold beforeDamage
  dsimp only
  rw [spawnText_lastFrame, (reloadFiles_spawner_fields _ _ _).2.2]

theorem frame_tick (Characters : Glyphs) (inp : FrameInput) (s : GameState)
    (hd : 0 ≤ inp.currentFrame - s.lastFrame) (ht : 0 ≤ s.damageTimer) :
    ∃ k : ℕ,
      s.playerHealth - (frame Characters inp s).playerHealth ≤ (k : ℚ) * damageAmount
      ∧ (k : ℚ) * damageInterval + (frame Characters inp s).damageTimer
          ≤ s.damageTimer + (inp.currentFrame - s.lastFrame)
      ∧ 0 ≤ (frame Characters inp s).damageTimer := by
  obtain ⟨f1, _, f3⟩ := frame_damage_block Characters inp s
  rw [f1, f3]
  exact applyDamage_tick _ _ s hd ht

theorem frameDeltas_sum_nonneg (inputs : List FrameInput) (lastFrame : ℚ)
    (hd : ∀ d ∈ frameDeltas inputs lastFrame, 0 ≤ d) :
    0 ≤ (frameDeltas inputs lastFrame).sum :=
  List.sum_nonneg hd

theorem run_ticks (Characters : Glyphs) (inputs : List FrameInput) (s : GameState)
    (hd : ∀ d ∈ frameDeltas inputs s.lastFrame, 0 ≤ d) (ht : 0 ≤ s.damageTimer) :
    ∃ k : ℕ,
      s.playerHealth - (run Characters inputs s).playerHealth ≤ (k : ℚ) * damageAmount
      ∧ (k : ℚ) * damageInterval + (run Characters inputs s).damageTimer
          ≤ s.damageTimer + (frameDeltas inputs s.lastFrame).sum
      ∧ 0 ≤ (run Characters inputs s).damageTimer := by
  induction inputs generalizing s with
  | nil =>
    refine ⟨0, ?_, ?_, ht⟩
    · simp [run]
    · simp [run, frameDeltas]
  | cons inp rest ih =>
    have hsum := frameDeltas_sum_nonneg _ _ hd
    rw [run]
    split_ifs with hclose
    · refine ⟨0, ?_, ?_, ht⟩
      · simp
      · rw [Nat.cast_zero, zero_mul, zero_add]; linarith
    · rw [frameDeltas] at hd hsum ⊢
      rw [List.sum_cons]
      have hd0 : 0 ≤ inp.currentFrame - s.lastFrame := hd _ (List.mem_cons_self _ _)
      obtain ⟨k1, a1, a2, a3⟩ := frame_tick Characters inp s hd0 ht
      obtain ⟨k2, b1, b2, b3⟩ := ih (frame Characters inp s)
        (by
          rw [frame_lastFrame]
          exact fun d hmem => hd d (List.mem_cons_of_mem _ hmem))
        a3
      rw [frame_lastFrame] at b2
      refine ⟨k1 + k2, ?_, ?_, b3⟩
      · rw [Nat.cast_add, add_mul]; linarith
      · rw [Nat.cast_add, add_mul]; linarith

/-- C14. Damage rate bound: over any sequence of frames with non-negative
frame deltas of total `T`, starting from damage timer 0, the health lost is at
most `⌊T / 0.5⌋ * 1.0`; and in any single frame, from any state and however
large its delta, the health drops by at most 1.0. -/
theorem damage_rate_bound (Characters : Glyphs) (inputs : List FrameInput) (s : GameState)
    (hd : ∀ d ∈ frameDeltas inputs s.lastFrame, 0 ≤ d) (ht : s.damageTimer = 0) :
    s.playerHealth - (run Characters inputs s).playerHealth
        ≤ (⌊(frameDeltas inputs s.lastFrame).sum / damageInterval⌋₊ : ℚ) * damageAmount
    ∧ (∀ (inp : FrameInput) (s' : GameState),
        s'.playerHealth - (frame Characters inp s').playerHealth ≤ damageAmount) := by
  have hi : damageInterval = 1 / 2 := rfl
  have ha : damageAmount = 1 := rfl
  constructor
  · obtain ⟨k, h1, h2, h3⟩ := run_ticks Characters inputs s hd (by rw [ht])
    rw [ht, zero_add] at h2
    have hk : (k : ℚ) ≤ (frameDeltas inputs s.lastFrame).sum / damageInterval := by
      rw [hi] at h2 ⊢
      rw [le_div_iff₀ (by norm_num)]
      linarith
    have hfloor : k ≤ ⌊(frameDeltas inputs s.lastFrame).sum / damageInterval⌋₊ :=
      Nat.le_floor hk
    have hcast : (k : ℚ) ≤ (⌊(frameDeltas inputs s.lastFrame).sum / damageInterval⌋₊ : ℚ) := by
      exact_mod_cast hfloor
    rw [ha] at h1 ⊢
    linarith
  · intro inp s'
    rw [(frame_damage_block Characters inp s').1]
    exact applyDamage_drop_le _ _ s'

theorem longFrame_health :
    (frame wideGlyphs (idleInput 5) longFrameState).playerHealth = 99 := by
  have hu : updateFallingTexts 5 [hazardAt 400] = [hazardAt 150] := updateFallingTexts_longFrame
  have hb : beforeDamage (idleInput 5) longFrameState
      = { longFrameState with
          lastFrame := 5
          fileReloadTimer := 5
          useFirstFile := false
          fallingTexts := [hazardAt 150] } := by
    have hr : readAllLines [] = [] := by decide
    simp [beforeDamage, longFrameState, idleInput, initialState, processInput, reloadFiles,
      fileReloadInterval, spawnText, textSpawnInterval, spawnFire, getNextLine, hr]
    norm_num
    exact hu
  have hs : (collisionScan wideGlyphs 0 (-(7 / 10)) [hazardAt 150]).2 = true := by
    rw [collisionScan_snd]
    exact ⟨hazardAt 150, List.mem_singleton.mpr rfl, rfl,
      checkCollision_wide 150 f32_150 (fadd_150_24.trans (by norm_num))
        (by norm_num) (by norm_num)⟩
  rw [(frame_damage _ _ _).1, hb]
  simp only [longFrameState, initialState, idleInput, hs, applyDamage, damageInterval,
    damageAmount]
  norm_num

/-- C14 at a concrete run: one frame of five seconds in hazard contact, from
health 100 and damage timer 0; the bound allows `⌊5 / 0.5⌋ = 10` points and
the frame takes exactly one. -/
theorem damage_rate_bound_witness :
    frameDeltas [idleInput 5] longFrameState.lastFrame = [5]
    ∧ longFrameState.playerHealth - (run wideGlyphs [idleInput 5] longFrameState).playerHealth
        ≤ (⌊(frameDeltas [idleInput 5] longFrameState.lastFrame).sum / damageInterval⌋₊ : ℚ)
            * damageAmount
    ∧ ⌊(frameDeltas [idleInput 5] longFrameState.lastFrame).sum / damageInterval⌋₊ = 10
    ∧ longFrameState.playerHealth = 100
    ∧ (frame wideGlyphs (idleInput 5) longFrameState).playerHealth = 99 := by
  have hdel : frameDeltas [idleInput 5] longFrameState.lastFrame = [5] := by
    simp [frameDeltas, idleInput, longFrameState, initialState]
  refine ⟨hdel, (damage_rate_bound wideGlyphs [idleInput 5] longFrameState ?_ rfl).1, ?_, rfl,
    longFrame_health⟩
  · rw [hdel]
    intro d hd
    rw [List.mem_singleton] at hd
    rw [hd]
    norm_num
  · rw [hdel]
    norm_num [damageInterval]

end Gambit
